import Mathlib

/-!
# JSON repository (src/index.js)

A shallow embedding of the file-backed document store of `src/index.js`:
the filter matcher (`matchesFilters`, `matchesOperators`, `getNestedValue`),
the CRUD operations (`addOperation`, `getOperation`, `updateOperation`,
`deleteOperation`) over the entity file, and the entry point `jsonRepository`
with its `try` and `catch` blocks.

Modelling decisions.

* Values are the JSON-compatible values. The JavaScript value `undefined`
  is not a JSON value: it only arises as the result of a property access, and
  is represented by `none` in `Option JVal`.
* Numbers are the integers `n` with `|n| ≤ 2 ^ 53`, which are doubles and are
  printed by `Number::toString` as plain decimal numerals. Numbers with a
  fraction, larger numbers, `NaN` and the infinities do not occur in values;
  larger integers are printed otherwise by the engine (`1e+21`), so that
  `intToString` describes the code on the range above only. `-0` is not
  told from `0` by any operation used here.
* The conversion of a string to a number (`stringToNumber`) rounds the decimal
  that the string denotes to the nearest double, ties to the even significand,
  with the subnormal range and the overflow to infinity; the result (`JNum`)
  is kept as the exact decimal value of that double.
* Strings are sequences of characters of the Basic Multilingual Plane, for
  which a character is one UTF-16 code unit: `length`, the index of a
  character and the order of two strings are those of the engine on such
  strings only.
* An object is the list of its own properties in enumeration order. Property
  access (`getProperty`) resolves own properties only: the properties that
  every object, array, string, number or boolean inherits from its prototype
  (`constructor`, `toString`, `valueOf`, `hasOwnProperty`, `__proto__`,
  `toFixed`, `trim` and the like) have functions as values, which are not
  JSON values, and are outside the model. A statement on `getNestedValue` or
  on the matcher describes the code for paths none of whose segments is the
  name of an inherited property of the value it is applied to.
* Two objects, or two arrays, that meet in a comparison always come from two
  different places (one from the parsed entity file, the other from the
  request), so they are never the same reference.
* The file system is reduced to the entity file and its backup copy, each
  either absent or holding a parsed collection; `JSON.stringify` followed by
  `JSON.parse` is the identity on the values modelled. Failures of the file
  system other than a missing file are not modelled.
* `uuidv4` is an external library: the sequence of identifiers it returns is
  a parameter (`uuid k` is the result of call number `k`).
* The documents of an ADD batch are objects of the caller, and one object may
  be listed several times in the batch. The assignment `item._id = ...` of
  `addOperation` changes the object, and is seen at every later place of the
  batch where the same object is listed: `AddData` gives the objects by
  number, and `addItems` threads them through the loop.
-/

namespace JsonRepository

/-! ## Values -/

/-- JSON-compatible values. -/
inductive JVal where
  | null
  | bool (b : Bool)
  | num (n : Int)
  | str (s : String)
  | arr (items : List JVal)
  | obj (fields : List (String × JVal))

/-- Own properties of a document, in enumeration order. -/
abbrev Document := List (String × JVal)

/-- Errors: `error` is `throw new Error(message)` of the source; `typeError` is
raised by the engine; `fsError` is a file system error with its code. -/
inductive JsError where
  | error (message : String)
  | typeError (message : String)
  | fsError (code : String)
  deriving DecidableEq

/-- The conversion `ToBoolean`, as used by `!x`. -/
def truthy : Option JVal → Bool
  | none => false
  | some .null => false
  | some (.bool b) => b
  | some (.num n) => n != 0
  | some (.str s) => s != ""
  | some (.arr _) => true
  | some (.obj _) => true

/-- Strict equality `===`. Objects and arrays are compared by reference, and the
two operands never are the same reference here. -/
def strictEquals : Option JVal → Option JVal → Bool
  | none, none => true
  | some .null, some .null => true
  | some (.bool a), some (.bool b) => a == b
  | some (.num a), some (.num b) => a == b
  | some (.str a), some (.str b) => a == b
  | _, _ => false

/-- Decimal numeral of an integer (`Number::toString` on the integers `n` with
`|n| ≤ 2 ^ 53`). -/
def intToString : Int → String
  | .ofNat k => Nat.repr k
  | .negSucc k => "-" ++ Nat.repr (k + 1)

mutual
/-- The conversion `ToString`. An array is joined with commas; an object is
`[object Object]`, unless it has an own property `toString`, which is not
callable and makes the conversion fail. -/
def toStringJS : JVal → Except JsError String
  | .null => .ok "null"
  | .bool b => .ok (if b then "true" else "false")
  | .num n => .ok (intToString n)
  | .str s => .ok s
  | .arr items =>
    match elementStrings items with
    | .ok parts => .ok (String.intercalate "," parts)
    | .error e => .error e
  | .obj fields =>
    if fields.any (fun p => p.1 == "toString") then
      .error (.typeError "Cannot convert object to primitive value")
    else .ok "[object Object]"
termination_by structural v => v
/-- The strings joined by `Array.prototype.join`: `null` gives the empty string. -/
def elementStrings : List JVal → Except JsError (List String)
  | [] => .ok []
  | x :: rest =>
    match (match x with
      | .null => Except.ok ""
      | v => toStringJS v) with
    | .error e => .error e
    | .ok a =>
      match elementStrings rest with
      | .ok parts => .ok (a :: parts)
      | .error e => .error e
termination_by structural l => l
end

/-- The conversion `ToPrimitive` with hint number. -/
def toPrimitive : Option JVal → Except JsError (Option JVal)
  | some (.arr items) =>
    match toStringJS (.arr items) with
    | .ok s => .ok (some (.str s))
    | .error e => .error e
  | some (.obj fields) =>
    match toStringJS (.obj fields) with
    | .ok s => .ok (some (.str s))
    | .error e => .error e
  | v => .ok v

/-! ## Numbers and ordered comparison -/

/-- Result of the conversion to a number: `fin m e` is the double of value
`m * 10 ^ e` (every double is a decimal). -/
inductive JNum where
  | nan
  | negInf
  | posInf
  | fin (m : Int) (e : Int)

/-- Strict order of two finite decimals. -/
def decimalLt (m1 e1 m2 e2 : Int) : Bool :=
  let k := min e1 e2
  decide (m1 * 10 ^ (e1 - k).toNat < m2 * 10 ^ (e2 - k).toNat)

/-- The operation `Number::lessThan`; `none` is its result `undefined`. -/
def JNum.lessThan : JNum → JNum → Option Bool
  | .nan, _ => none
  | _, .nan => none
  | .posInf, _ => some false
  | _, .posInf => some true
  | _, .negInf => some false
  | .negInf, _ => some true
  | .fin m1 e1, .fin m2 e2 => some (decimalLt m1 e1 m2 e2)

/-- White space and line terminators, as skipped by `StringToNumber`. -/
def isStrWhiteSpaceChar (c : Char) : Bool :=
  let n := c.toNat
  n == 0x09 || n == 0x0A || n == 0x0B || n == 0x0C || n == 0x0D || n == 0x20
    || n == 0xA0 || n == 0x1680 || (decide (0x2000 ≤ n) && decide (n ≤ 0x200A))
    || n == 0x2028 || n == 0x2029 || n == 0x202F || n == 0x205F || n == 0x3000
    || n == 0xFEFF

/-- Value of a digit in the given base. -/
def digitValue (base : Nat) (c : Char) : Option Nat :=
  let n := c.toNat
  let v : Option Nat :=
    if 48 ≤ n ∧ n ≤ 57 then some (n - 48)
    else if 97 ≤ n ∧ n ≤ 102 then some (n - 87)
    else if 65 ≤ n ∧ n ≤ 70 then some (n - 55)
    else none
  match v with
  | some d => if d < base then some d else none
  | none => none

/-- Value of a non-empty sequence of digits, the accumulator first. -/
def digitsFrom (base : Nat) : Nat → List Char → Option Nat
  | acc, [] => some acc
  | acc, c :: cs =>
    match digitValue base c with
    | some d => digitsFrom base (acc * base + d) cs
    | none => none

/-- Value of a non-empty sequence of digits. -/
def digitsValue (base : Nat) : List Char → Option Nat
  | [] => none
  | c :: cs => digitsFrom base 0 (c :: cs)

/-- A signed integer of an exponent part. -/
def signedInteger : List Char → Option Int
  | '+' :: cs => (digitsValue 10 cs).map Int.ofNat
  | '-' :: cs => (digitsValue 10 cs).map (fun v => - Int.ofNat v)
  | cs => (digitsValue 10 cs).map Int.ofNat

/-- Number of binary digits of a natural number, the fuel first. -/
def bitLengthFrom : Nat → Nat → Nat
  | 0, _ => 0
  | fuel + 1, n => if n = 0 then 0 else bitLengthFrom fuel (n / 2) + 1

/-- Number of binary digits of a natural number. -/
def bitLength (n : Nat) : Nat := bitLengthFrom n n

/-- The double nearest to the positive rational `num / den`, ties going to the
even significand: `q * 2 ^ x` with `q ≤ 2 ^ 53` and `-1074 ≤ x`, written as the
decimal `q * 5 ^ (-x) * 10 ^ x` when `x` is negative; the result is infinite
from `2 ^ 1024` on, that is when `971 < x`, or `x = 971` and `q = 2 ^ 53`. -/
def nearestDouble (num den : Nat) : JNum :=
  let b : Int := Int.ofNat (bitLength num) - Int.ofNat (bitLength den)
  let below : Bool := decide (num * 2 ^ (-b).toNat < den * 2 ^ b.toNat)
  let x : Int := max (if below then b - 53 else b - 52) (-1074)
  let n := num * 2 ^ (-x).toNat
  let d := den * 2 ^ x.toNat
  let q0 := n / d
  let r := n % d
  let q := if d < 2 * r ∨ (d = 2 * r ∧ q0 % 2 = 1) then q0 + 1 else q0
  if 971 < x ∨ (x = 971 ∧ q = 2 ^ 53) then .posInf
  else if q = 0 then .fin 0 0
  else if 0 ≤ x then .fin (Int.ofNat (q * 2 ^ x.toNat)) 0
  else .fin (Int.ofNat (q * 5 ^ (-x).toNat)) x

/-- The number value of the decimal `m * 10 ^ e`, rounded to a double. A decimal
of more than 310 integer digits is infinite and one below `10 ^ (-330)` is 0,
which spares the computation of the power of ten. -/
def roundToDouble (m : Nat) (e : Int) : JNum :=
  if m = 0 then .fin 0 0
  else if 310 < Int.ofNat (Nat.toDigits 10 m).length + e then .posInf
  else if Int.ofNat (Nat.toDigits 10 m).length + e < -330 then .fin 0 0
  else nearestDouble (m * 10 ^ e.toNat) (10 ^ (-e).toNat)

/-- The production `StrUnsignedDecimalLiteral`. -/
def unsignedDecimal (cs : List Char) : JNum :=
  if cs = "Infinity".data then .posInf
  else
    let mant := cs.takeWhile (fun c => c != 'e' && c != 'E')
    let expo : Option Int :=
      match cs.dropWhile (fun c => c != 'e' && c != 'E') with
      | [] => some 0
      | _ :: ds => signedInteger ds
    let ints := mant.takeWhile (fun c => c != '.')
    let frac : Option (List Char) :=
      match mant.dropWhile (fun c => c != '.') with
      | [] => none
      | _ :: fs => some fs
    let digits : Option (List Char × Nat) :=
      match frac with
      | none => some (ints, 0)
      | some fs => if ints.isEmpty && fs.isEmpty then none else some (ints ++ fs, fs.length)
    match digits, expo with
    | some (ds, k), some x =>
      match digitsValue 10 ds with
      | some m => roundToDouble m (x - Int.ofNat k)
      | none => .nan
    | _, _ => .nan

/-- Opposite of a number. -/
def JNum.neg : JNum → JNum
  | .nan => .nan
  | .negInf => .posInf
  | .posInf => .negInf
  | .fin m e => .fin (-m) e

/-- The operation `StringToNumber` on the characters of a string. -/
def stringToNumber (s : List Char) : JNum :=
  let t := ((s.dropWhile isStrWhiteSpaceChar).reverse.dropWhile isStrWhiteSpaceChar).reverse
  match t with
  | [] => .fin 0 0
  | '+' :: cs => unsignedDecimal cs
  | '-' :: cs => (unsignedDecimal cs).neg
  | '0' :: c :: cs =>
    let base : Option Nat :=
      if c = 'x' ∨ c = 'X' then some 16
      else if c = 'o' ∨ c = 'O' then some 8
      else if c = 'b' ∨ c = 'B' then some 2
      else none
    match base with
    | some b =>
      match digitsValue b cs with
      | some m => roundToDouble m 0
      | none => .nan
    | none => unsignedDecimal t
  | _ => unsignedDecimal t

/-- The conversion `ToNumber` of a primitive value. -/
def toNumber : Option JVal → JNum
  | none => .nan
  | some .null => .fin 0 0
  | some (.bool b) => .fin (if b then 1 else 0) 0
  | some (.num n) => .fin n 0
  | some (.str s) => stringToNumber s.data
  | some (.arr _) => .nan
  | some (.obj _) => .nan

/-- Order of two strings by their code units. -/
def charsLt : List Char → List Char → Bool
  | _, [] => false
  | [], _ :: _ => true
  | a :: as, b :: bs =>
    if a.toNat < b.toNat then true
    else if b.toNat < a.toNat then false
    else charsLt as bs

/-- The abstract operation `IsLessThan`; `none` is its result `undefined`. -/
def isLessThan (x y : Option JVal) : Except JsError (Option Bool) :=
  match toPrimitive x with
  | .error e => .error e
  | .ok px =>
    match toPrimitive y with
    | .error e => .error e
    | .ok py =>
      match px, py with
      | some (.str a), some (.str b) => .ok (some (charsLt a.data b.data))
      | _, _ => .ok ((toNumber px).lessThan (toNumber py))

/-- The expression `x < y`. -/
def jsLt (x y : Option JVal) : Except JsError Bool :=
  match isLessThan x y with
  | .ok r => .ok (r == some true)
  | .error e => .error e

/-- The expression `x > y`. -/
def jsGt (x y : Option JVal) : Except JsError Bool :=
  match isLessThan y x with
  | .ok r => .ok (r == some true)
  | .error e => .error e

/-- The expression `x <= y`. -/
def jsLe (x y : Option JVal) : Except JsError Bool :=
  match isLessThan y x with
  | .ok r => .ok (r == some false)
  | .error e => .error e

/-- The expression `x >= y`. -/
def jsGe (x y : Option JVal) : Except JsError Bool :=
  match isLessThan x y with
  | .ok r => .ok (r == some false)
  | .error e => .error e

/-! ## Property access -/

/-- The index denoted by a property name, when the name is a canonical numeral. -/
def arrayIndex (key : String) : Option Nat :=
  match key.data with
  | [] => none
  | [c] => digitsValue 10 [c]
  | c :: d :: cs => if c = '0' then none else digitsValue 10 (c :: d :: cs)

/-- The expression `current?.[key]`: own properties of an object, elements and
`length` of an array, characters and `length` of a string; `undefined` on
`null` and `undefined` (the optional chaining), and on a number or a boolean,
which have no own property. Inherited properties are not resolved: for a key
such as `constructor` or `toString` the code returns a function where this
definition returns `none`. -/
def getProperty (current : Option JVal) (key : String) : Option JVal :=
  match current with
  | some (.obj fields) => fields.lookup key
  | some (.arr items) =>
    if key = "length" then some (.num (Int.ofNat items.length))
    else
      match arrayIndex key with
      | some i => items.get? i
      | none => none
  | some (.str s) =>
    if key = "length" then some (.num (Int.ofNat s.data.length))
    else
      match arrayIndex key with
      | some i => (s.data.get? i).map (fun c => JVal.str (String.mk [c]))
      | none => none
  | _ => none

/-- The segments of `path.split(".")`, on the characters of the path. -/
def splitDots : List Char → List (List Char)
  | [] => [[]]
  | c :: cs =>
    if c = '.' then [] :: splitDots cs
    else
      match splitDots cs with
      | [] => [[c]]
      | seg :: segs => (c :: seg) :: segs

/-- Source `getNestedValue(obj, path)`: null-safe traversal of the segments. -/
def getNestedValue (obj : JVal) (path : String) : Option JVal :=
  (splitDots path.data).foldl (fun current key => getProperty current (String.mk key)) (some obj)

/-! ## Filter matcher -/

/-- The method `includes` of a string, on characters. -/
def includesChars (needle : List Char) : List Char → Bool
  | [] => needle.isEmpty
  | c :: cs => needle.isPrefixOf (c :: cs) || includesChars needle cs

/-- One `case` of the `switch` of `matchesOperators`: `ok false` where the source
returns false, `ok true` where it goes on to the next operator, and the error
of the `default` branch. -/
def operatorHolds (itemValue : Option JVal) (operator : String) (compareValue : JVal) :
    Except JsError Bool :=
  if operator = "$eq" then .ok (strictEquals itemValue (some compareValue))
  else if operator = "$ne" then .ok (!strictEquals itemValue (some compareValue))
  else if operator = "$gt" then
    match jsLe itemValue (some compareValue) with
    | .ok b => .ok (!b)
    | .error e => .error e
  else if operator = "$gte" then
    match jsLt itemValue (some compareValue) with
    | .ok b => .ok (!b)
    | .error e => .error e
  else if operator = "$lt" then
    match jsGe itemValue (some compareValue) with
    | .ok b => .ok (!b)
    | .error e => .error e
  else if operator = "$lte" then
    match jsGt itemValue (some compareValue) with
    | .ok b => .ok (!b)
    | .error e => .error e
  else if operator = "$in" then
    match compareValue with
    | .arr items => .ok (items.any (fun x => strictEquals (some x) itemValue))
    | _ => .ok false
  else if operator = "$nin" then
    match compareValue with
    | .arr items => .ok (!items.any (fun x => strictEquals (some x) itemValue))
    | _ => .ok false
  else if operator = "$contains" then
    match itemValue with
    | some (.str s) =>
      match toStringJS compareValue with
      | .ok t => .ok (includesChars t.data s.data)
      | .error e => .error e
    | _ => .ok false
  else if operator = "$startsWith" then
    match itemValue with
    | some (.str s) =>
      match toStringJS compareValue with
      | .ok t => .ok (t.data.isPrefixOf s.data)
      | .error e => .error e
    | _ => .ok false
  else if operator = "$endsWith" then
    match itemValue with
    | some (.str s) =>
      match toStringJS compareValue with
      | .ok t => .ok (t.data.isSuffixOf s.data)
      | .error e => .error e
    | _ => .ok false
  else if operator = "$exists" then
    .ok (strictEquals (some (.bool itemValue.isSome)) (some compareValue))
  else .error (.error ("Unknown operator: " ++ operator))

/-- Source `matchesOperators(itemValue, operators)`, on the entries of `operators`. -/
def matchesOperators (itemValue : Option JVal) : List (String × JVal) → Except JsError Bool
  | [] => .ok true
  | (operator, compareValue) :: rest =>
    match operatorHolds itemValue operator compareValue with
    | .ok true => matchesOperators itemValue rest
    | .ok false => .ok false
    | .error e => .error e

/-- The body of the loop of `matchesFilters` for a key that is a field path:
`ok true` where the loop goes on, `ok false` where the source returns false. -/
def fieldMatches (item : JVal) (key : String) (value : JVal) : Except JsError Bool :=
  match value with
  | .obj operators => matchesOperators (getNestedValue item key) operators
  | _ => .ok (strictEquals (getNestedValue item key) (some value))

/-- Entries of an array or of the characters of a string: the indices are the keys. -/
def indexEntries : Nat → List JVal → List (String × JVal)
  | _, [] => []
  | i, v :: rest => (Nat.repr i, v) :: indexEntries (i + 1) rest

/-- The result of `Object.entries` on a value other than `null`. -/
def ownEntries : JVal → List (String × JVal)
  | .obj fields => fields
  | .arr items => indexEntries 0 items
  | .str s => indexEntries 0 (s.data.map (fun c => JVal.str (String.mk [c])))
  | _ => []

/-- The loop of `matchesFilters` over entries whose keys are indices, none of
which is a combinator. -/
def matchesIndexEntries (item : JVal) : List (String × JVal) → Except JsError Bool
  | [] => .ok true
  | (key, value) :: rest =>
    match fieldMatches item key value with
    | .ok true => matchesIndexEntries item rest
    | .ok false => .ok false
    | .error e => .error e

mutual
/-- Source `matchesFilters(item, filters)`. -/
def matchesFilters (item : JVal) : JVal → Except JsError Bool
  | .obj fields => matchesEntries item fields
  | .null => .error (.typeError "Cannot convert undefined or null to object")
  | .arr items => matchesIndexEntries item (ownEntries (.arr items))
  | .str s => matchesIndexEntries item (ownEntries (.str s))
  | .bool _ => .ok true
  | .num _ => .ok true
termination_by structural f => f
/-- The loop of `matchesFilters` over the entries of a filter object. -/
def matchesEntries (item : JVal) : List (String × JVal) → Except JsError Bool
  | [] => .ok true
  | (key, value) :: rest =>
    if key = "$and" then
      match value with
      | .arr subFilters => everyMatches item subFilters
      | _ => .error (.typeError "value.every is not a function")
    else if key = "$or" then
      match value with
      | .arr subFilters => someMatches item subFilters
      | _ => .error (.typeError "value.some is not a function")
    else if key = "$not" then
      match matchesFilters item value with
      | .ok b => .ok (!b)
      | .error e => .error e
    else
      match fieldMatches item key value with
      | .ok true => matchesEntries item rest
      | .ok false => .ok false
      | .error e => .error e
termination_by structural l => l
/-- The call `value.every(subFilter => matchesFilters(item, subFilter))`. -/
def everyMatches (item : JVal) : List JVal → Except JsError Bool
  | [] => .ok true
  | subFilter :: rest =>
    match matchesFilters item subFilter with
    | .ok true => everyMatches item rest
    | .ok false => .ok false
    | .error e => .error e
termination_by structural l => l
/-- The call `value.some(subFilter => matchesFilters(item, subFilter))`. -/
def someMatches (item : JVal) : List JVal → Except JsError Bool
  | [] => .ok false
  | subFilter :: rest =>
    match matchesFilters item subFilter with
    | .ok true => .ok true
    | .ok false => someMatches item rest
    | .error e => .error e
termination_by structural l => l
end

/-! ## Entity store -/

/-- The fields of `dbConfig` that the operations read (`basePath` only selects
the file, which is fixed here). -/
structure Config where
  prettyPrint : Bool
  backup : Bool
  autoCreateEntity : Bool

/-- State of the file system: the parsed content of the entity file and of its
backup copy, `none` when the file does not exist. -/
structure Store where
  file : Option (List Document)
  backup : Option (List Document)

/-- What an operation returns: `{ data, count, message }`. -/
structure OpResult where
  data : List Document
  count : Nat
  message : String

/-- Source `writeEntityFile(filePath, data, config)`: the optional copy to the
backup file (a failure of the copy is ignored), then the overwrite. -/
def writeEntityFile (data : List Document) (config : Config) (s : Store) : Store :=
  { file := some data
    backup :=
      if config.backup then
        match s.file with
        | some old => some old
        | none => s.backup
      else s.backup }

/-- Source `readEntityFile(filePath, config)`: the content of the file; a missing
file is created empty when `autoCreateEntity` is set, and is an error otherwise. -/
def readEntityFile (config : Config) (s : Store) : Except JsError (List Document) × Store :=
  match s.file with
  | some existingData => (.ok existingData, s)
  | none =>
    if config.autoCreateEntity then (.ok [], writeEntityFile [] config s)
    else (.error (.fsError "ENOENT"), s)

/-! ## CRUD operations -/

/-- The assignment `item[key] = value`: an existing property keeps its place. -/
def setProperty (item : Document) (key : String) (value : JVal) : Document :=
  if item.any (fun p => p.1 == key) then
    item.map (fun p => if p.1 == key then (p.1, value) else p)
  else item ++ [(key, value)]

/-- The assignment `item[key] = value` where the value may be `undefined`: a
property set to `undefined` is written by `JSON.stringify` as no property. -/
def assignProperty (item : Document) (key : String) : Option JVal → Document
  | some value => setProperty item key value
  | none => item.filter (fun p => p.1 != key)

/-- The object `{ ...item, ...data }`. -/
def spreadMerge (item data : Document) : Document :=
  data.foldl (fun acc p => setProperty acc p.1 p.2) item

/-- The data of an ADD request: one document; or an array of documents that are
pairwise distinct objects; or an array in which one object may be listed several
times, given by the objects it refers to (by number) and, for each of its
elements in order, the number of the object that the element is. -/
inductive AddData where
  | single (item : Document)
  | many (items : List Document)
  | shared (objects : Nat → Document) (refs : List Nat)

/-- The objects that the data refers to, by number, as they are when ADD starts. -/
def AddData.objects : AddData → Nat → Document
  | .single item => fun _ => item
  | .many items => fun i => items.getD i []
  | .shared objects _ => objects

/-- For each element of `itemsToAdd`, the number of the object that it is. -/
def AddData.refs : AddData → List Nat
  | .single _ => [0]
  | .many items => List.range items.length
  | .shared _ refs => refs

/-- The line `Array.isArray(data) ? data : [data]`: the documents as they are
passed, in order. -/
def AddData.itemsToAdd : AddData → List Document
  | .single item => [item]
  | .many items => items
  | .shared objects refs => refs.map objects

/-- The item of the loop of `addOperation` after the line that generates its
`_id`, and the number of identifiers generated so far. -/
def withId (uuid : Nat → String) (k : Nat) (item : Document) : Document × Nat :=
  if !truthy (item.lookup "_id") then (setProperty item "_id" (.str (uuid k)), k + 1)
  else (item, k)

/-- The objects of the caller after an assignment to the object number `ref`. -/
def setObject (objects : Nat → Document) (ref : Nat) (item : Document) : Nat → Document :=
  fun i => if i = ref then item else objects i

/-- The loop of `addOperation` over `itemsToAdd`: the list `addedItems`, or the
error of the first item whose `_id` is in `existingData`. The assignment
`item._id = uuidv4()` changes the object of the caller, so an object that is
listed again later is met with the `_id` it was given. -/
def addItems (existingData : List Document) (uuid : Nat → String) :
    (Nat → Document) → Nat → List Nat → Except JsError (List Document)
  | _, _, [] => .ok []
  | objects, k, ref :: rest =>
    if existingData.any (fun existing =>
        strictEquals (existing.lookup "_id")
          ((withId uuid k (objects ref)).1.lookup "_id")) then
      match (withId uuid k (objects ref)).1.lookup "_id" with
      | some v =>
        match toStringJS v with
        | .ok s => .error (.error ("Duplicate _id: " ++ s))
        | .error e => .error e
      | none => .error (.error "Duplicate _id: undefined")
    else
      match addItems existingData uuid
          (setObject objects ref (withId uuid k (objects ref)).1)
          (withId uuid k (objects ref)).2 rest with
      | .ok addedItems => .ok ((withId uuid k (objects ref)).1 :: addedItems)
      | .error e => .error e

/-- Source `addOperation(entity, data, config)`. -/
def addOperation (data : Option AddData) (config : Config) (uuid : Nat → String)
    (s : Store) : Except JsError OpResult × Store :=
  match data with
  | none => (.error (.error "Data is required for ADD operation"), s)
  | some d =>
    match readEntityFile config s with
    | (.error e, s1) => (.error e, s1)
    | (.ok existingData, s1) =>
      match addItems existingData uuid d.objects 0 d.refs with
      | .error e => (.error e, s1)
      | .ok addedItems =>
        (.ok { data := addedItems
               count := addedItems.length
               message := "Successfully added " ++ Nat.repr addedItems.length ++ " item(s)" },
         writeEntityFile (existingData ++ addedItems) config s1)

/-- The test `!filters || Object.keys(filters).length === 0`. -/
def noFilters : Option JVal → Bool
  | none => true
  | some f => !truthy (some f) || (ownEntries f).length == 0

/-- The call `existingData.filter(item => matchesFilters(item, filters))`. -/
def filterMatching (filters : JVal) : List Document → Except JsError (List Document)
  | [] => .ok []
  | item :: rest =>
    match matchesFilters (.obj item) filters with
    | .error e => .error e
    | .ok b =>
      match filterMatching filters rest with
      | .error e => .error e
      | .ok filteredData => .ok (if b then item :: filteredData else filteredData)

/-- Source `getOperation(entity, filters, config)`. -/
def getOperation (filters : Option JVal) (config : Config) (s : Store) :
    Except JsError OpResult × Store :=
  match readEntityFile config s with
  | (.error e, s1) => (.error e, s1)
  | (.ok existingData, s1) =>
    match filters with
    | none =>
      (.ok { data := existingData
             count := existingData.length
             message := "Retrieved " ++ Nat.repr existingData.length ++ " item(s)" }, s1)
    | some f =>
      if noFilters (some f) then
        (.ok { data := existingData
               count := existingData.length
               message := "Retrieved " ++ Nat.repr existingData.length ++ " item(s)" }, s1)
      else
        match filterMatching f existingData with
        | .error e => (.error e, s1)
        | .ok filteredData =>
          (.ok { data := filteredData
                 count := filteredData.length
                 message := "Retrieved " ++ Nat.repr filteredData.length
                   ++ " item(s) matching filters" }, s1)

/-- The updated item of `updateOperation`: `{ ...item, ...data }` with the `_id`
of `item` put back. -/
def updatedItem (item data : Document) : Document :=
  assignProperty (spreadMerge item data) "_id" (item.lookup "_id")

/-- The call `existingData.map(...)` of `updateOperation`: the new collection and
the list `updatedItems`. -/
def updateItems (data : Document) (filters : JVal) :
    List Document → Except JsError (List Document × List Document)
  | [] => .ok ([], [])
  | item :: rest =>
    match matchesFilters (.obj item) filters with
    | .error e => .error e
    | .ok b =>
      match updateItems data filters rest with
      | .error e => .error e
      | .ok (newData, updatedItems) =>
        if b then .ok (updatedItem item data :: newData, updatedItem item data :: updatedItems)
        else .ok (item :: newData, updatedItems)

/-- Source `updateOperation(entity, data, filters, config)`. -/
def updateOperation (data : Option Document) (filters : Option JVal) (config : Config)
    (s : Store) : Except JsError OpResult × Store :=
  match data with
  | none => (.error (.error "Data is required for UPDATE operation"), s)
  | some d =>
    match filters with
    | none =>
      (.error (.error "Filters are required for UPDATE operation (safety measure)"), s)
    | some f =>
      if noFilters (some f) then
        (.error (.error "Filters are required for UPDATE operation (safety measure)"), s)
      else
        match readEntityFile config s with
        | (.error e, s1) => (.error e, s1)
        | (.ok existingData, s1) =>
          match updateItems d f existingData with
          | .error e => (.error e, s1)
          | .ok (newData, updatedItems) =>
            (.ok { data := updatedItems
                   count := updatedItems.length
                   message := "Successfully updated " ++ Nat.repr updatedItems.length
                     ++ " item(s)" },
             writeEntityFile newData config s1)

/-- The call `existingData.filter(...)` of `deleteOperation`: the collection kept
and the list `deletedItems`. -/
def deleteItems (filters : JVal) :
    List Document → Except JsError (List Document × List Document)
  | [] => .ok ([], [])
  | item :: rest =>
    match matchesFilters (.obj item) filters with
    | .error e => .error e
    | .ok b =>
      match deleteItems filters rest with
      | .error e => .error e
      | .ok (newData, deletedItems) =>
        if b then .ok (newData, item :: deletedItems)
        else .ok (item :: newData, deletedItems)

/-- Source `deleteOperation(entity, filters, config)`. -/
def deleteOperation (filters : Option JVal) (config : Config) (s : Store) :
    Except JsError OpResult × Store :=
  match filters with
  | none =>
    (.error (.error "Filters are required for DELETE operation (safety measure)"), s)
  | some f =>
    if noFilters (some f) then
      (.error (.error "Filters are required for DELETE operation (safety measure)"), s)
    else
      match readEntityFile config s with
      | (.error e, s1) => (.error e, s1)
      | (.ok existingData, s1) =>
        match deleteItems f existingData with
        | .error e => (.error e, s1)
        | .ok (newData, deletedItems) =>
          (.ok { data := deletedItems
                 count := deletedItems.length
                 message := "Successfully deleted " ++ Nat.repr deletedItems.length
                   ++ " item(s)" },
           writeEntityFile newData config s1)

/-! ## Reference notions used in the statements -/

/-- Whether the filter matches the document: `matchesFilters` returns true. -/
def isMatch (filters : JVal) (item : Document) : Bool :=
  match matchesFilters (.obj item) filters with
  | .ok true => true
  | _ => false

/-- Whether one operator of an operator object holds on the resolved value. -/
def operatorTrue (v : Option JVal) (oc : String × JVal) : Bool :=
  match operatorHolds v oc.1 oc.2 with
  | .ok true => true
  | _ => false

/-- Whether a constraint of a filter holds on the resolved value: every operator
of an operator object holds, or the value is strictly equal to the literal. -/
def constraintHolds (v : Option JVal) : JVal → Bool
  | .obj operators => operators.all (operatorTrue v)
  | .null => strictEquals v (some .null)
  | .bool b => strictEquals v (some (.bool b))
  | .num n => strictEquals v (some (.num n))
  | .str s => strictEquals v (some (.str s))
  | .arr items => strictEquals v (some (.arr items))

/-- Whether a key of a filter object is one of the three combinators. -/
def isCombinator (key : String) : Bool :=
  key == "$and" || key == "$or" || key == "$not"

/-! ## Sample data of the scenarios -/

/-- The document `{_id: "1", age: 30, city: "Rome"}`. -/
def romeDoc : Document := [("_id", .str "1"), ("age", .num 30), ("city", .str "Rome")]

/-- The document `{_id: "2", age: 20, city: "Turin"}`. -/
def turinDoc : Document := [("_id", .str "2"), ("age", .num 20), ("city", .str "Turin")]

/-- The collection of the scenarios of the specification. -/
def sampleCollection : List Document := [romeDoc, turinDoc]

/-- The default configuration: pretty printing, no backup, creation of a missing
entity file. -/
def defaultConfig : Config := { prettyPrint := true, backup := false, autoCreateEntity := true }

/-- A sequence of version 4 identifiers, as `uuidv4` may return them. -/
def sampleUuid : Nat → String
  | 0 => "110ec58a-a0f2-4ac4-8393-c866d813b8d1"
  | 1 => "7c9e6679-7425-40de-944b-e07fc1f90ae7"
  | k + 2 => "3f2504e0-4f89-41d3-9a0c-0305e82c" ++ Nat.repr (3301 + k)

/-- The filter `{"age": {"$gte": 25}}`. -/
def ageAtLeast25 : JVal := .obj [("age", .obj [("$gte", .num 25)])]

/-- The filter `{"age": {"$weird": 1}}`, with an operator that is not recognised. -/
def weirdFilter : JVal := .obj [("age", .obj [("$weird", .num 1)])]

/-- The entries of the filter `{"age": {"$gte": 25}, "city": "Rome"}`. -/
def ageAndCity : List (String × JVal) :=
  [("age", .obj [("$gte", .num 25)]), ("city", .str "Rome")]

/-- Relation between a document of an ADD request and the document appended for
it: the same document when its `_id` is truthy; otherwise the document with
`_id` set to a generated identifier, every other field being as in the input. -/
def AddedFrom (uuid : Nat → String) (item out : Document) : Prop :=
  (truthy (item.lookup "_id") = true → out = item) ∧
  (truthy (item.lookup "_id") = false →
    ∃ k, out = setProperty item "_id" (.str (uuid k)) ∧
      out.lookup "_id" = some (.str (uuid k)) ∧
      ∀ key, key ≠ "_id" → out.lookup key = item.lookup key)

/-- The document `{_id: "", name: "Ann"}`, whose `_id` is the empty string. -/
def emptyIdDoc : Document := [("_id", .str ""), ("name", .str "Ann")]

/-- The document `{name: "Ann"}`, without `_id`. -/
def annDoc : Document := [("name", .str "Ann")]

/-- Relation between two positions of an ADD batch, each given by the input
document and the document appended for it: when one of the two inputs has no
truthy `_id`, the two appended documents have different `_id` values. -/
def DistinctIds (p q : Document × Document) : Prop :=
  (truthy (p.1.lookup "_id") = false ∨ truthy (q.1.lookup "_id") = false) →
    p.2.lookup "_id" ≠ q.2.lookup "_id"

/-- An injective sequence of non-empty identifiers, standing for results of
`uuidv4`: the identifier number `k` is made of `k + 1` letters. -/
def countingUuid (k : Nat) : String := String.mk (List.replicate (k + 1) 'f')

/-- Relation between a stored document and the document that UPDATE puts in its
place: the same document when the filter does not match it; otherwise a document
with the `_id` of the original and, at every other key, the value of `data`
when `data` has the key and the value of the original when it has not. -/
def UpdatedFrom (filters : JVal) (data item out : Document) : Prop :=
  (isMatch filters item = false → out = item) ∧
  (isMatch filters item = true →
    out.lookup "_id" = item.lookup "_id" ∧
    ∀ key, key ≠ "_id" →
      (∀ v, data.lookup key = some v → out.lookup key = some v) ∧
      (data.lookup key = none → out.lookup key = item.lookup key))

/-- The filter `{"city": "Turin"}`. -/
def cityTurin : JVal := .obj [("city", .str "Turin")]

/-- The data `{_id: "9", age: 21}` of an UPDATE request, with an `_id` of its own. -/
def ageData : Document := [("_id", .str "9"), ("age", .num 21)]

/-- Whether an operator name is one of the `case` labels of `matchesOperators`. -/
def isKnownOperator (operator : String) : Bool :=
  operator == "$eq" || operator == "$ne" || operator == "$gt" || operator == "$gte"
    || operator == "$lt" || operator == "$lte" || operator == "$in" || operator == "$nin"
    || operator == "$contains" || operator == "$startsWith" || operator == "$endsWith"
    || operator == "$exists"

/-- The evaluation of the filter on the document reaches the operator `op`: the
filter is an object, the field constraints before the one that holds `op` hold
on the document, and so do the operators before `op` in its operator object. -/
def ReachesOperator (d : Document) (filter : JVal) (op : String) : Prop :=
  ∃ pre key opsPre compareValue opsPost post,
    filter = .obj (pre ++ (key, .obj (opsPre ++ (op, compareValue) :: opsPost)) :: post) ∧
    (∀ p ∈ pre, isCombinator p.1 = false ∧
      constraintHolds (getNestedValue (.obj d) p.1) p.2 = true) ∧
    isCombinator key = false ∧
    ∀ oc ∈ opsPre, operatorTrue (getNestedValue (.obj d) key) oc = true

/-- The filter `{"age": {"$gt": 100, "$weird": 1}}`: the unrecognised operator
comes after an operator that holds on neither sample document. -/
def weirdAfterGt : JVal := .obj [("age", .obj [("$gt", .num 100), ("$weird", .num 1)])]

/-- The filter `{"city": "Rome", "age": {"$gte": 25, "$weird": 1}}`. -/
def weirdAfterRome : JVal :=
  .obj [("city", .str "Rome"), ("age", .obj [("$gte", .num 25), ("$weird", .num 1)])]

/-- No two documents of the collection have strictly equal `_id` values (for
`_id` values of type string: the strings are pairwise different). -/
def UniqueIds (c : List Document) : Prop :=
  c.Pairwise (fun a b => strictEquals (a.lookup "_id") (b.lookup "_id") = false)

/-- The filter `{path: {operator: compareValue}}` with one field constraint made
of one operator. -/
def operatorFilter (path operator : String) (compareValue : JVal) : JVal :=
  .obj [(path, .obj [(operator, compareValue)])]

/-- The document `{_id: "3", age: "30"}`, whose `age` is a string. -/
def stringAgeDoc : Document := [("_id", .str "3"), ("age", .str "30")]

/-- The filter `{"age": 99, "$and": []}`: a field constraint that fails on both
sample documents, followed by an `$and` all of whose sub-filters match. -/
def ageThenAnd : JVal := .obj [("age", .num 99), ("$and", .arr [])]

/-- The filter `{"$or": [], "$and": []}`: the key `$or` comes before the key `$and`. -/
def orThenAnd : JVal := .obj [("$or", .arr []), ("$and", .arr [])]

/-! ## Request dispatch -/

/-- The property `message` of an error. Of the message of a file system error
only the code it starts with is kept. -/
def JsError.message : JsError → String
  | .error message => message
  | .typeError message => message
  | .fsError code => code

/-- The method `toUpperCase` of a string, on the letters `a` to `z`; the other
characters are kept (none of them is mapped to a letter of an operation name). -/
def toUpperCase (s : String) : String := String.mk (s.data.map Char.toUpper)

/-- The property `data` of a request: one document, an array of documents that are
pairwise distinct objects, or an array in which one object may be listed several
times (see `AddData`). -/
inductive RequestData where
  | document (item : Document)
  | documents (items : List Document)
  | sharedDocuments (objects : Nat → Document) (refs : List Nat)

/-- The property `config` of a request: `null`, or an object with the three
options that the operations read, each of any value or absent. -/
inductive RequestConfig where
  | null
  | object (prettyPrint backup autoCreateEntity : Option JVal)

/-- The argument `options` of `jsonRepository`, when it is neither `null` nor
`undefined`: each property is absent (`none`) or holds a value. -/
structure Request where
  entity : Option JVal
  operation : Option JVal
  data : Option RequestData
  filters : Option JVal
  config : Option RequestConfig

/-- The object that `jsonRepository` resolves to; `data` is `none` for `null`. The
diagnostic property `error` is left out. -/
structure Response where
  success : Bool
  operation : String
  entity : Option JVal
  data : Option (List Document)
  count : Nat
  message : String

/-- The object `dbConfig` built from `config`, whose default is `{}`. -/
def dbConfig : Option RequestConfig → Except JsError Config
  | none => .ok { prettyPrint := true, backup := false, autoCreateEntity := true }
  | some .null => .error (.typeError "Cannot read properties of null (reading 'basePath')")
  | some (.object prettyPrint backup autoCreateEntity) =>
    .ok { prettyPrint :=
            match prettyPrint with
            | none => true
            | some v => truthy (some v)
          backup := truthy backup
          autoCreateEntity :=
            match autoCreateEntity with
            | none => true
            | some v => truthy (some v) }

/-- The data of a request as `addOperation` reads it. -/
def RequestData.toAddData : RequestData → AddData
  | .document item => .single item
  | .documents items => .many items
  | .sharedDocuments objects refs => .shared objects refs

/-- The data of a request as the spread `...data` of `updateOperation` reads it: the
own properties of an array are its elements under their indices. -/
def RequestData.toDocument : RequestData → Document
  | .document item => item
  | .documents items => indexEntries 0 (items.map JVal.obj)
  | .sharedDocuments objects refs => indexEntries 0 ((refs.map objects).map JVal.obj)

/-- The `switch` of `jsonRepository` on the operation in upper case. -/
def dispatch (op : String) (req : Request) (config : Config) (uuid : Nat → String)
    (s : Store) : Except JsError OpResult × Store :=
  if op = "ADD" then addOperation (req.data.map RequestData.toAddData) config uuid s
  else if op = "GET" then
    getOperation (some (match req.filters with
      | none => .obj []
      | some f => f)) config s
  else if op = "UPDATE" then
    updateOperation (req.data.map RequestData.toDocument) (some (match req.filters with
      | none => .obj []
      | some f => f)) config s
  else
    deleteOperation (some (match req.filters with
      | none => .obj []
      | some f => f)) config s

/-- The `try` block of `jsonRepository`. -/
def tryBlock (options : Option Request) (uuid : Nat → String) (s : Store) :
    Except JsError Response × Store :=
  match options with
  | none =>
    (.error (.typeError "Cannot destructure property 'entity' of 'options' as it is undefined."),
      s)
  | some req =>
    match req.entity with
    | some (.str entity) =>
      if entity = "" then (.error (.error "Entity name is required and must be a string"), s)
      else
        match req.operation with
        | some (.str operation) =>
          if operation = "" then
            (.error (.error "Operation must be one of: ADD, GET, UPDATE, DELETE"), s)
          else if toUpperCase operation ∈ ["ADD", "GET", "UPDATE", "DELETE"] then
            match dbConfig req.config with
            | .error e => (.error e, s)
            | .ok config =>
              match dispatch (toUpperCase operation) req config uuid s with
              | (.error e, s1) => (.error e, s1)
              | (.ok result, s1) =>
                (.ok { success := true
                       operation := toUpperCase operation
                       entity := some (.str entity)
                       data := some result.data
                       count := result.count
                       message := result.message }, s1)
          else (.error (.error "Operation must be one of: ADD, GET, UPDATE, DELETE"), s)
        | some v =>
          if truthy (some v) then
            (.error (.typeError "operation.toUpperCase is not a function"), s)
          else (.error (.error "Operation must be one of: ADD, GET, UPDATE, DELETE"), s)
        | none => (.error (.error "Operation must be one of: ADD, GET, UPDATE, DELETE"), s)
    | _ => (.error (.error "Entity name is required and must be a string"), s)

/-- The expression `options.operation?.toUpperCase() || 'UNKNOWN'` of the `catch`
block: the optional chaining stops on `null` and `undefined` only. -/
def failureOperation : Option JVal → Except JsError String
  | none => .ok "UNKNOWN"
  | some .null => .ok "UNKNOWN"
  | some (.str operation) =>
    .ok (if toUpperCase operation = "" then "UNKNOWN" else toUpperCase operation)
  | some _ => .error (.typeError "options.operation?.toUpperCase is not a function")

/-- The `catch` block of `jsonRepository`: the failure response, or the error that
the block itself raises. -/
def catchBlock (options : Option Request) (e : JsError) : Except JsError Response :=
  match options with
  | none => .error (.typeError "Cannot read properties of undefined (reading 'operation')")
  | some req =>
    match failureOperation req.operation with
    | .error e2 => .error e2
    | .ok op =>
      .ok { success := false
            operation := op
            entity := if truthy req.entity then req.entity else some (.str "unknown")
            data := none
            count := 0
            message := e.message }

/-- Source `jsonRepository(options)`: the response the promise resolves to, or the
error it is rejected with. -/
def jsonRepository (options : Option Request) (uuid : Nat → String) (s : Store) :
    Except JsError Response × Store :=
  match tryBlock options uuid s with
  | (.ok response, s1) => (.ok response, s1)
  | (.error e, s1) => (catchBlock options e, s1)

/-- The request `{entity: "users", operation: 5}`, whose operation is a number. -/
def numericOperationRequest : Request :=
  { entity := some (.str "users"), operation := some (.num 5), data := none, filters := none,
    config := none }

/-- The request `{entity: "users", operation: "get", filters: {"age": {"$gte": 25}}}`. -/
def getRequest : Request :=
  { entity := some (.str "users"), operation := some (.str "get"), data := none,
    filters := some ageAtLeast25, config := none }

/-! ## Reference notions for ADD with shared objects -/

/-- The items of the loop of `addOperation` as they are after the line that
generates a missing `_id`, in order, when no duplicate stops the loop: the
documents of the batch as ADD stores them. -/
def itemsWithIds (uuid : Nat → String) :
    (Nat → Document) → Nat → List Nat → List Document
  | _, _, [] => []
  | objects, k, ref :: rest =>
    (withId uuid k (objects ref)).1 ::
      itemsWithIds uuid (setObject objects ref (withId uuid k (objects ref)).1)
        (withId uuid k (objects ref)).2 rest

/-- The document `{name: "Bob"}`, without `_id`. -/
def bobDoc : Document := [("name", .str "Bob")]

/-- The batch `[ann, ann]` in which the one object `ann = {name: "Ann"}` is
listed twice. -/
def annTwice : AddData := .shared (fun _ => annDoc) [0, 0]

/-- The document `{_id: "4", age: "abc"}`, whose `age` is a string that denotes no
number. -/
def wordAgeDoc : Document := [("_id", .str "4"), ("age", .str "abc")]

/-! ## Filter matcher: lemmas -/

theorem matchesFilters_obj (item : JVal) (fields : List (String × JVal)) :
    matchesFilters item (.obj fields) = matchesEntries item fields := by
  simp [matchesFilters]

theorem matchesEntries_and (item : JVal) (subFilters : List JVal)
    (rest : List (String × JVal)) :
    matchesEntries item (("$and", .arr subFilters) :: rest) = everyMatches item subFilters := by
  simp [matchesEntries]

theorem matchesEntries_or (item : JVal) (subFilters : List JVal)
    (rest : List (String × JVal)) :
    matchesEntries item (("$or", .arr subFilters) :: rest) = someMatches item subFilters := by
  simp [matchesEntries]

theorem everyMatches_true_iff (item : JVal) (fs : List JVal) :
    everyMatches item fs = .ok true ↔ ∀ f ∈ fs, matchesFilters item f = .ok true := by
  induction fs with
  | nil => simp [everyMatches]
  | cons f rest ih =>
    rw [everyMatches]
    cases h : matchesFilters item f with
    | error e => simp [h]
    | ok b => cases b <;> simp [ih, h]

theorem someMatches_true_iff (item : JVal) (fs : List JVal) :
    someMatches item fs = .ok true ↔
      ∃ pre f post, fs = pre ++ f :: post ∧ (∀ g ∈ pre, matchesFilters item g = .ok false) ∧
        matchesFilters item f = .ok true := by
  induction fs with
  | nil => simp [someMatches]
  | cons f rest ih =>
    rw [someMatches]
    cases h : matchesFilters item f with
    | error e =>
      simp only [false_iff, reduceCtorEq]
      rintro ⟨pre, g, post, hfs, hpre, hg⟩
      cases pre with
      | nil =>
        simp only [List.nil_append, List.cons.injEq] at hfs
        rw [hfs.1, hg] at h
        cases h
      | cons p pre =>
        simp only [List.cons_append, List.cons.injEq] at hfs
        have := hpre p (List.mem_cons_self _ _)
        rw [← hfs.1, h] at this
        cases this
    | ok b =>
      cases b with
      | true =>
        simp only [true_iff]
        exact ⟨[], f, rest, rfl, by simp, h⟩
      | false =>
        simp only [ih]
        constructor
        · rintro ⟨pre, g, post, hfs, hpre, hg⟩
          refine ⟨f :: pre, g, post, by simp [hfs], ?_, hg⟩
          intro x hx
          rcases List.mem_cons.1 hx with rfl | hx
          · exact h
          · exact hpre x hx
        · rintro ⟨pre, g, post, hfs, hpre, hg⟩
          cases pre with
          | nil =>
            simp only [List.nil_append, List.cons.injEq] at hfs
            rw [hfs.1, hg] at h
            cases h
          | cons p pre =>
            simp only [List.cons_append, List.cons.injEq] at hfs
            exact ⟨pre, g, post, hfs.2, fun x hx => hpre x (List.mem_cons_of_mem _ hx), hg⟩

theorem matchesOperators_true_iff (v : Option JVal) (operators : List (String × JVal)) :
    matchesOperators v operators = .ok true ↔
      ∀ oc ∈ operators, operatorHolds v oc.1 oc.2 = .ok true := by
  induction operators with
  | nil => simp [matchesOperators]
  | cons oc rest ih =>
    obtain ⟨operator, compareValue⟩ := oc
    rw [matchesOperators]
    cases h : operatorHolds v operator compareValue with
    | error e => simp [h]
    | ok b => cases b <;> simp [ih, h]

theorem operatorTrue_iff (v : Option JVal) (oc : String × JVal) :
    operatorTrue v oc = true ↔ operatorHolds v oc.1 oc.2 = .ok true := by
  unfold operatorTrue
  cases h : operatorHolds v oc.1 oc.2 with
  | error e => simp
  | ok b => cases b <;> simp

theorem fieldMatches_true_iff (item : JVal) (key : String) (value : JVal) :
    fieldMatches item key value = .ok true ↔
      constraintHolds (getNestedValue item key) value = true := by
  cases value <;>
    simp [fieldMatches, constraintHolds, matchesOperators_true_iff, operatorTrue_iff]

theorem matchesEntries_field (item : JVal) (key : String) (value : JVal)
    (rest : List (String × JVal)) (hkey : isCombinator key = false) :
    matchesEntries item ((key, value) :: rest) =
      match fieldMatches item key value with
      | .ok true => matchesEntries item rest
      | .ok false => .ok false
      | .error e => .error e := by
  simp only [isCombinator, Bool.or_eq_false_iff, beq_eq_false_iff_ne, ne_eq] at hkey
  obtain ⟨⟨h1, h2⟩, h3⟩ := hkey
  have hunfold : matchesEntries item ((key, value) :: rest) =
      if key = "$and" then
        match value with
        | .arr subFilters => everyMatches item subFilters
        | _ => .error (.typeError "value.every is not a function")
      else if key = "$or" then
        match value with
        | .arr subFilters => someMatches item subFilters
        | _ => .error (.typeError "value.some is not a function")
      else if key = "$not" then
        match matchesFilters item value with
        | .ok b => .ok (!b)
        | .error e => .error e
      else
        match fieldMatches item key value with
        | .ok true => matchesEntries item rest
        | .ok false => .ok false
        | .error e => .error e := by
    cases value <;> rfl
  rw [hunfold, if_neg h1, if_neg h2, if_neg h3]

theorem matchesEntries_fields_iff (item : JVal) (fields : List (String × JVal))
    (hkeys : ∀ p ∈ fields, isCombinator p.1 = false) :
    matchesEntries item fields = .ok true ↔
      ∀ p ∈ fields, fieldMatches item p.1 p.2 = .ok true := by
  induction fields with
  | nil => simp [matchesEntries]
  | cons p rest ih =>
    obtain ⟨key, value⟩ := p
    have hk := hkeys (key, value) (List.mem_cons_self _ _)
    have hrest : ∀ q ∈ rest, isCombinator q.1 = false :=
      fun q hq => hkeys q (List.mem_cons_of_mem _ hq)
    rw [matchesEntries_field item key value rest hk]
    cases h : fieldMatches item key value with
    | error e => simp [h]
    | ok b => cases b <;> simp [ih hrest, h]

/-! ## GET: lemmas -/

theorem noFilters_iff (f : JVal) : noFilters (some f) = true ↔ ownEntries f = [] := by
  cases f with
  | null => simp [noFilters, truthy, ownEntries]
  | bool b => simp [noFilters, truthy, ownEntries]
  | num n => simp [noFilters, truthy, ownEntries]
  | str s =>
    obtain ⟨cs⟩ := s
    cases cs <;> simp [noFilters, truthy, ownEntries, indexEntries, String.ext_iff]
  | arr items => cases items <;> simp [noFilters, truthy, ownEntries, indexEntries]
  | obj fields => cases fields <;> simp [noFilters, truthy, ownEntries]

theorem filterMatching_ok (f : JVal) (c : List Document)
    (h : ∀ d ∈ c, ∃ b, matchesFilters (.obj d) f = .ok b) :
    filterMatching f c = .ok (c.filter (isMatch f)) := by
  induction c with
  | nil => rfl
  | cons d rest ih =>
    obtain ⟨b, hb⟩ := h d (List.mem_cons_self _ _)
    have hrest := ih (fun x hx => h x (List.mem_cons_of_mem _ hx))
    simp only [filterMatching, hb, hrest, List.filter, isMatch]
    cases b <;> rfl

theorem filterMatching_error (f : JVal) (c : List Document)
    (h : ∃ d ∈ c, ∃ e, matchesFilters (.obj d) f = .error e) :
    ∃ e, filterMatching f c = .error e := by
  induction c with
  | nil => simp at h
  | cons d rest ih =>
    obtain ⟨x, hx, e, he⟩ := h
    cases hd : matchesFilters (.obj d) f with
    | error e1 => exact ⟨e1, by simp [filterMatching, hd]⟩
    | ok b =>
      rcases List.mem_cons.1 hx with rfl | hx
      · rw [hd] at he
        cases he
      · obtain ⟨e2, he2⟩ := ih ⟨x, hx, e, he⟩
        exact ⟨e2, by simp [filterMatching, hd, he2]⟩

/-! ## Claims on the filter matcher and on GET -/

/-- C1 (counterexample): on a collection holding the document `{_id: "1", age: 30,
city: "Rome"}`, GET with the filter `{"age": {"$weird": 1}}` returns no data at
all: it fails with the error of the unknown operator. -/
theorem getOperation_weird_fails :
    getOperation (some weirdFilter) defaultConfig { file := some [romeDoc], backup := none } =
        (.error (.error "Unknown operator: $weird"), { file := some [romeDoc], backup := none }) ∧
      ¬ ∃ r s1, getOperation (some weirdFilter) defaultConfig
          { file := some [romeDoc], backup := none } = (.ok r, s1) := by
  have h : getOperation (some weirdFilter) defaultConfig
      { file := some [romeDoc], backup := none } =
        (.error (.error "Unknown operator: $weird"),
          { file := some [romeDoc], backup := none }) := rfl
  refine ⟨h, ?_⟩
  rintro ⟨r, s1, hr⟩
  rw [h] at hr
  cases hr

/-- C1 (amended): on a stored collection `c`, GET with a filter that is absent or
has no keys returns `c` itself with count the length of `c`; with a filter that
has keys and whose evaluation fails on no document of `c`, it returns the
documents of `c` that match, in their order, with count their number; if the
evaluation fails on some document, GET fails. The store is unchanged in all
three cases. -/
theorem getOperation_spec (c : List Document) (filters : Option JVal) (config : Config)
    (backup : Option (List Document)) :
    ((filters = none ∨ ∃ f, filters = some f ∧ ownEntries f = []) →
      getOperation filters config { file := some c, backup := backup } =
        (.ok { data := c, count := c.length,
               message := "Retrieved " ++ Nat.repr c.length ++ " item(s)" },
         { file := some c, backup := backup })) ∧
    (∀ f, filters = some f → ownEntries f ≠ [] →
      ((∀ d ∈ c, ∃ b, matchesFilters (.obj d) f = .ok b) →
        getOperation filters config { file := some c, backup := backup } =
          (.ok { data := c.filter (isMatch f), count := (c.filter (isMatch f)).length,
                 message := "Retrieved " ++ Nat.repr (c.filter (isMatch f)).length
                   ++ " item(s) matching filters" },
           { file := some c, backup := backup })) ∧
      ((∃ d ∈ c, ∃ e, matchesFilters (.obj d) f = .error e) →
        ∃ e, getOperation filters config { file := some c, backup := backup } =
          (.error e, { file := some c, backup := backup }))) := by
  refine ⟨?_, ?_⟩
  · rintro (rfl | ⟨f, rfl, hf⟩)
    · rfl
    · have hno := (noFilters_iff f).2 hf
      simp [getOperation, readEntityFile, hno]
  · rintro f rfl hf
    have hno : noFilters (some f) = false := by
      cases h : noFilters (some f) with
      | false => rfl
      | true => exact absurd ((noFilters_iff f).1 h) hf
    refine ⟨?_, ?_⟩
    · intro hall
      simp [getOperation, readEntityFile, hno, filterMatching_ok f c hall]
    · intro hsome
      obtain ⟨e, he⟩ := filterMatching_error f c hsome
      exact ⟨e, by simp [getOperation, readEntityFile, hno, he]⟩

/-- C1 (witness): the scenario of the specification, the filter `{"age": {"$gte":
25}}` on the two sample documents returns the document `1` only, count 1. -/
theorem getOperation_spec_witness :
    (∀ d ∈ sampleCollection, ∃ b, matchesFilters (.obj d) ageAtLeast25 = .ok b) ∧
      getOperation (some ageAtLeast25) defaultConfig
          { file := some sampleCollection, backup := none } =
        (.ok { data := [romeDoc], count := 1,
               message := "Retrieved 1 item(s) matching filters" },
         { file := some sampleCollection, backup := none }) := by
  have hall : ∀ d ∈ sampleCollection, ∃ b, matchesFilters (.obj d) ageAtLeast25 = .ok b := by
    intro d hd
    simp only [sampleCollection, List.mem_cons, List.mem_singleton, List.not_mem_nil,
      or_false] at hd
    rcases hd with rfl | rfl
    · exact ⟨true, rfl⟩
    · exact ⟨false, rfl⟩
  exact ⟨hall, ((getOperation_spec sampleCollection (some ageAtLeast25) defaultConfig none).2
    ageAtLeast25 rfl (by simp [ageAtLeast25, ownEntries])).1 hall⟩

/-- C2: for every document and every filter `f`, the filter `{"$not": f}` evaluates
to the negation of the evaluation of `f`, and it fails exactly when the
evaluation of `f` fails, with the same error. -/
theorem not_filter_negates (item f : JVal) :
    matchesFilters item (.obj [("$not", f)]) =
        Except.map (fun b => !b) (matchesFilters item f) ∧
      (∀ e, matchesFilters item (.obj [("$not", f)]) = .error e ↔
        matchesFilters item f = .error e) := by
  have h : matchesFilters item (.obj [("$not", f)]) =
      Except.map (fun b => !b) (matchesFilters item f) := by
    rw [matchesFilters_obj]
    simp only [matchesEntries]
    cases matchesFilters item f <;> simp [Except.map]
  refine ⟨h, fun e => ?_⟩
  rw [h]
  cases matchesFilters item f <;> simp [Except.map]

/-- C3 (counterexample): with the sub-filters `{"age": {"$weird": 1}}` and `{}`, the
second of which matches every document, `$or` does not evaluate to true: the
first sub-filter fails and so does `$or`. -/
theorem or_filter_fails_before_match :
    matchesFilters (.obj romeDoc) (.obj []) = .ok true ∧
      matchesFilters (.obj romeDoc) (.obj [("$or", .arr [weirdFilter, .obj []])]) =
        .error (.error "Unknown operator: $weird") ∧
      ¬ (matchesFilters (.obj romeDoc) (.obj [("$or", .arr [weirdFilter, .obj []])]) = .ok true ↔
          ∃ f ∈ [weirdFilter, JVal.obj []], matchesFilters (.obj romeDoc) f = .ok true) := by
  have h : matchesFilters (.obj romeDoc) (.obj [("$or", .arr [weirdFilter, .obj []])]) =
      .error (.error "Unknown operator: $weird") := rfl
  refine ⟨rfl, h, fun hiff => ?_⟩
  have h2 := hiff.2 ⟨.obj [], by simp, rfl⟩
  rw [h] at h2
  cases h2

/-- C3 (amended): `{"$and": fs}` is true iff every element of `fs` matches; `{"$or":
fs}` is true iff some element of `fs` matches and every element before it
evaluates to false, so that none of them fails; `{"$and": []}` matches every
document and `{"$or": []}` matches none. -/
theorem and_or_filter_spec (item : JVal) (fs : List JVal) :
    (matchesFilters item (.obj [("$and", .arr fs)]) = .ok true ↔
        ∀ f ∈ fs, matchesFilters item f = .ok true) ∧
      (matchesFilters item (.obj [("$or", .arr fs)]) = .ok true ↔
        ∃ pre f post, fs = pre ++ f :: post ∧
          (∀ g ∈ pre, matchesFilters item g = .ok false) ∧
          matchesFilters item f = .ok true) ∧
      matchesFilters item (.obj [("$and", .arr [])]) = .ok true ∧
      matchesFilters item (.obj [("$or", .arr [])]) = .ok false := by
  refine ⟨?_, ?_, ?_, ?_⟩
  · rw [matchesFilters_obj, matchesEntries_and, everyMatches_true_iff]
  · rw [matchesFilters_obj, matchesEntries_or, someMatches_true_iff]
  · rw [matchesFilters_obj, matchesEntries_and]
    rfl
  · rw [matchesFilters_obj, matchesEntries_or]
    rfl

/-- C4: for a filter object none of whose keys is a combinator, `matchesFilters` is
true iff every entry holds on the value resolved at its path, where an operator
object holds iff every operator in it holds, and any other constraint holds
iff the value is strictly equal to it; the number 1 is not strictly equal to
the string "1", and an absent value is strictly equal to no literal. -/
theorem field_filter_spec (item : JVal) (fields : List (String × JVal))
    (hkeys : ∀ p ∈ fields, isCombinator p.1 = false) :
    (matchesFilters item (.obj fields) = .ok true ↔
        ∀ p ∈ fields, constraintHolds (getNestedValue item p.1) p.2 = true) ∧
      (∀ v operators, constraintHolds v (.obj operators) = true ↔
        ∀ oc ∈ operators, operatorHolds v oc.1 oc.2 = .ok true) ∧
      (∀ v constraint, (∀ operators, constraint ≠ .obj operators) →
        constraintHolds v constraint = strictEquals v (some constraint)) ∧
      strictEquals (some (.num 1)) (some (.str "1")) = false ∧
      (∀ constraint, strictEquals none (some constraint) = false) := by
  refine ⟨?_, ?_, ?_, rfl, ?_⟩
  · rw [matchesFilters_obj, matchesEntries_fields_iff item fields hkeys]
    simp only [fieldMatches_true_iff]
  · intro v operators
    simp [constraintHolds, operatorTrue_iff]
  · intro v constraint hc
    cases constraint with
    | obj operators => exact absurd rfl (hc operators)
    | _ => rfl
  · intro constraint
    cases constraint <;> rfl

/-- C4 (witness): the filter `{"age": {"$gte": 25}, "city": "Rome"}` has no
combinator key and matches the document `1`. -/
theorem field_filter_spec_witness :
    (∀ p ∈ ageAndCity, isCombinator p.1 = false) ∧
      (matchesFilters (.obj romeDoc) (.obj ageAndCity) = .ok true ↔
        ∀ p ∈ ageAndCity, constraintHolds (getNestedValue (.obj romeDoc) p.1) p.2 = true) :=
  ⟨by decide, (field_filter_spec (.obj romeDoc) ageAndCity (by decide)).1⟩

/-! ## Documents: lemmas -/

theorem lookup_cons_eq (k : String) (v : JVal) (rest : Document) :
    List.lookup k ((k, v) :: rest) = some v := by
  simp [List.lookup]

theorem lookup_cons_ne (k a : String) (v : JVal) (rest : Document) (h : k ≠ a) :
    List.lookup k ((a, v) :: rest) = List.lookup k rest := by
  have hka : (k == a) = false := by simpa using h
  simp [List.lookup, hka]

theorem lookup_map_set_ne (key : String) (value : JVal) (k : String) (hk : k ≠ key)
    (item : Document) :
    List.lookup k (item.map (fun p => if p.1 == key then (p.1, value) else p)) =
      List.lookup k item := by
  induction item with
  | nil => rfl
  | cons p rest ih =>
    obtain ⟨a, b⟩ := p
    rw [List.map_cons]
    by_cases ha : a = key
    · have hka : k ≠ a := fun h => hk (h.trans ha)
      have hhead : (if ((a, b) : String × JVal).1 == key then (((a, b) : String × JVal).1, value)
          else (a, b)) = (a, value) := by simp [ha]
      rw [hhead, lookup_cons_ne k a value _ hka, lookup_cons_ne k a b _ hka, ih]
    · have hhead : (if ((a, b) : String × JVal).1 == key then (((a, b) : String × JVal).1, value)
          else (a, b)) = (a, b) := by simp [ha]
      rw [hhead]
      by_cases hka : k = a
      · subst hka
        rw [lookup_cons_eq, lookup_cons_eq]
      · rw [lookup_cons_ne k a b _ hka, lookup_cons_ne k a b _ hka, ih]

theorem lookup_map_set_eq (key : String) (value : JVal) (item : Document)
    (hany : item.any (fun p => p.1 == key) = true) :
    List.lookup key (item.map (fun p => if p.1 == key then (p.1, value) else p)) =
      some value := by
  induction item with
  | nil => simp at hany
  | cons p rest ih =>
    obtain ⟨a, b⟩ := p
    rw [List.map_cons]
    by_cases ha : a = key
    · have hhead : (if ((a, b) : String × JVal).1 == key then (((a, b) : String × JVal).1, value)
          else (a, b)) = (key, value) := by simp [ha]
      rw [hhead, lookup_cons_eq]
    · have hhead : (if ((a, b) : String × JVal).1 == key then (((a, b) : String × JVal).1, value)
          else (a, b)) = (a, b) := by simp [ha]
      have hrest : rest.any (fun p => p.1 == key) = true := by
        simpa [List.any_cons, ha] using hany
      rw [hhead, lookup_cons_ne key a b _ (fun h => ha h.symm), ih hrest]

theorem lookup_append_single (key : String) (value : JVal) (k : String) (item : Document) :
    List.lookup k (item ++ [(key, value)]) =
      match List.lookup k item with
      | some v => some v
      | none => if k = key then some value else none := by
  induction item with
  | nil =>
    by_cases hk : k = key
    · subst hk
      simp [List.lookup]
    · rw [List.nil_append, lookup_cons_ne k key value _ hk]
      simp [hk]
  | cons p rest ih =>
    obtain ⟨a, b⟩ := p
    rw [List.cons_append]
    by_cases hka : k = a
    · subst hka
      rw [lookup_cons_eq, lookup_cons_eq]
    · rw [lookup_cons_ne k a b _ hka, lookup_cons_ne k a b _ hka, ih]

theorem lookup_none_of_not_any (key : String) (item : Document)
    (h : item.any (fun p => p.1 == key) = false) : List.lookup key item = none := by
  induction item with
  | nil => rfl
  | cons p rest ih =>
    obtain ⟨a, b⟩ := p
    simp only [List.any_cons, Bool.or_eq_false_iff, beq_eq_false_iff_ne, ne_eq] at h
    rw [lookup_cons_ne key a b _ (fun h' => h.1 h'.symm), ih h.2]

theorem lookup_setProperty (item : Document) (key : String) (value : JVal) (k : String) :
    List.lookup k (setProperty item key value) =
      if k = key then some value else List.lookup k item := by
  unfold setProperty
  cases hany : item.any (fun p => p.1 == key) with
  | true =>
    simp only [if_true]
    by_cases hk : k = key
    · subst hk
      rw [lookup_map_set_eq k value item hany]
      simp
    · rw [lookup_map_set_ne key value k hk]
      simp [hk]
  | false =>
    simp only [Bool.false_eq_true, if_false]
    rw [lookup_append_single]
    by_cases hk : k = key
    · subst hk
      simp [lookup_none_of_not_any k item hany]
    · simp only [hk, if_false]
      cases List.lookup k item <;> rfl

/-! ## ADD: lemmas -/

theorem withId_truthy (uuid : Nat → String) (k : Nat) (item : Document)
    (h : truthy (item.lookup "_id") = true) : withId uuid k item = (item, k) := by
  simp [withId, h]

theorem withId_falsy (uuid : Nat → String) (k : Nat) (item : Document)
    (h : truthy (item.lookup "_id") = false) :
    withId uuid k item = (setProperty item "_id" (.str (uuid k)), k + 1) := by
  simp [withId, h]

theorem withId_counter_le (uuid : Nat → String) (k : Nat) (item : Document) :
    k ≤ (withId uuid k item).2 := by
  cases h : truthy (item.lookup "_id") with
  | true => simp [withId_truthy uuid k item h]
  | false => simp [withId_falsy uuid k item h]

theorem setProperty_setProperty (item : Document) (key : String) (a b : JVal) :
    setProperty (setProperty item key a) key b = setProperty item key b := by
  have hmap : ∀ l : Document,
      (l.map (fun p => if p.1 == key then (p.1, a) else p)).map
          (fun p => if p.1 == key then (p.1, b) else p) =
        l.map (fun p => if p.1 == key then (p.1, b) else p) := by
    intro l
    rw [List.map_map]
    apply List.map_congr_left
    intro p _
    show (fun p => if p.1 == key then (p.1, b) else p)
        (if p.1 == key then (p.1, a) else p) = _
    cases hp : p.1 == key <;> simp [hp]
  have hanymap : ∀ l : Document,
      (l.map (fun p => if p.1 == key then (p.1, a) else p)).any (fun p => p.1 == key) =
        l.any (fun p => p.1 == key) := by
    intro l
    induction l with
    | nil => rfl
    | cons p rest ih =>
      rw [List.map_cons, List.any_cons, List.any_cons, ih]
      cases hp : p.1 == key <;> simp [hp]
  have hfix : ∀ l : Document, l.any (fun p => p.1 == key) = false →
      l.map (fun p => if p.1 == key then (p.1, b) else p) = l := by
    intro l hl
    induction l with
    | nil => rfl
    | cons p rest ih =>
      rw [List.any_cons, Bool.or_eq_false_iff] at hl
      rw [List.map_cons, ih hl.2]
      simp [hl.1]
  cases hany : item.any (fun p => p.1 == key) with
  | true =>
    have h1 : setProperty item key a =
        item.map (fun p => if p.1 == key then (p.1, a) else p) := by
      simp [setProperty, hany]
    have h2 : setProperty item key b =
        item.map (fun p => if p.1 == key then (p.1, b) else p) := by
      simp [setProperty, hany]
    rw [h1, h2]
    unfold setProperty
    rw [hanymap, hany]
    simp only [if_true]
    exact hmap item
  | false =>
    have h1 : setProperty item key a = item ++ [(key, a)] := by
      simp [setProperty, hany]
    have h2 : setProperty item key b = item ++ [(key, b)] := by
      simp [setProperty, hany]
    rw [h1, h2]
    unfold setProperty
    have hany2 : (item ++ [(key, a)]).any (fun p => p.1 == key) = true := by
      simp
    rw [hany2]
    simp only [if_true]
    rw [List.map_append, hfix item hany]
    simp

theorem range_map_getD (items : List Document) :
    (List.range items.length).map (fun i => items.getD i []) = items := by
  apply List.ext_getElem
  · simp
  · intro n h1 h2
    simp [List.getD_eq_getElem?_getD, h2]

theorem itemsToAdd_eq_map (data : AddData) :
    data.itemsToAdd = data.refs.map data.objects := by
  cases data with
  | single item => rfl
  | many items => exact (range_map_getD items).symm
  | shared objects refs => rfl

theorem length_itemsWithIds (uuid : Nat → String) (refs : List Nat) :
    ∀ objects k, (itemsWithIds uuid objects k refs).length = refs.length := by
  induction refs with
  | nil => intro objects k; rfl
  | cons ref rest ih =>
    intro objects k
    rw [itemsWithIds, List.length_cons, List.length_cons, ih]

theorem addItems_cons_ok (c : List Document) (uuid : Nat → String) (objects : Nat → Document)
    (k ref : Nat) (rest : List Nat) (outs : List Document)
    (h : addItems c uuid objects k (ref :: rest) = .ok outs) :
    c.any (fun existing =>
        strictEquals (existing.lookup "_id")
          ((withId uuid k (objects ref)).1.lookup "_id")) = false ∧
      ∃ tail, addItems c uuid (setObject objects ref (withId uuid k (objects ref)).1)
          (withId uuid k (objects ref)).2 rest = .ok tail ∧
        outs = (withId uuid k (objects ref)).1 :: tail := by
  rw [addItems] at h
  cases hany : c.any (fun existing =>
      strictEquals (existing.lookup "_id")
        ((withId uuid k (objects ref)).1.lookup "_id")) with
  | true =>
    rw [hany] at h
    simp only [if_true] at h
    cases hl : (withId uuid k (objects ref)).1.lookup "_id" with
    | none => rw [hl] at h; cases h
    | some v =>
      rw [hl] at h
      simp only at h
      cases hs : toStringJS v with
      | ok s => rw [hs] at h; cases h
      | error e => rw [hs] at h; cases h
  | false =>
    rw [hany] at h
    simp only [Bool.false_eq_true, if_false] at h
    cases hrest : addItems c uuid (setObject objects ref (withId uuid k (objects ref)).1)
        (withId uuid k (objects ref)).2 rest with
    | error e => rw [hrest] at h; cases h
    | ok tail =>
      rw [hrest] at h
      cases h
      exact ⟨rfl, tail, rfl, rfl⟩

theorem not_any_of_forall (c : List Document) (x : Option JVal)
    (h : c.any (fun existing => strictEquals (existing.lookup "_id") x) = false) :
    ∀ e ∈ c, strictEquals (e.lookup "_id") x = false := by
  intro e he
  cases hse : strictEquals (e.lookup "_id") x with
  | false => rfl
  | true =>
    have hcontra : c.any (fun existing => strictEquals (existing.lookup "_id") x) = true :=
      List.any_eq_true.2 ⟨e, he, hse⟩
    rw [h] at hcontra
    cases hcontra

theorem addItems_ok (c : List Document) (uuid : Nat → String) (refs : List Nat) :
    ∀ objects k outs, addItems c uuid objects k refs = .ok outs →
      outs = itemsWithIds uuid objects k refs ∧
      ∀ e ∈ c, ∀ out ∈ outs, strictEquals (e.lookup "_id") (out.lookup "_id") = false := by
  induction refs with
  | nil =>
    intro objects k outs h
    rw [addItems] at h
    cases h
    exact ⟨rfl, by simp⟩
  | cons ref rest ih =>
    intro objects k outs h
    obtain ⟨hany, tail, htail, rfl⟩ := addItems_cons_ok c uuid objects k ref rest outs h
    obtain ⟨heq, hold⟩ := ih _ _ tail htail
    refine ⟨?_, ?_⟩
    · rw [itemsWithIds, heq]
    · intro e he out hout
      rcases List.mem_cons.1 hout with rfl | hout
      · exact not_any_of_forall c _ hany e he
      · exact hold e he out hout

theorem itemsWithIds_spec (uuid : Nat → String) (refs : List Nat) :
    ∀ objects k, ∀ p ∈ refs.zip (itemsWithIds uuid objects k refs),
      (truthy ((objects p.1).lookup "_id") = true → p.2 = objects p.1) ∧
      (truthy ((objects p.1).lookup "_id") = false →
        ∃ j, k ≤ j ∧ p.2 = setProperty (objects p.1) "_id" (.str (uuid j))) := by
  induction refs with
  | nil =>
    intro objects k p hp
    simp [itemsWithIds] at hp
  | cons ref rest ih =>
    intro objects k p hp
    rw [itemsWithIds, List.zip_cons_cons] at hp
    rcases List.mem_cons.1 hp with rfl | hp
    · constructor
      · intro ht
        show (withId uuid k (objects ref)).1 = objects ref
        rw [withId_truthy uuid k _ ht]
      · intro hf
        refine ⟨k, Nat.le_refl k, ?_⟩
        show (withId uuid k (objects ref)).1 = _
        rw [withId_falsy uuid k _ hf]
    · have hle := withId_counter_le uuid k (objects ref)
      obtain ⟨h1, h2⟩ := ih _ _ p hp
      by_cases hpr : p.1 = ref
      · have hobj : setObject objects ref (withId uuid k (objects ref)).1 p.1 =
            (withId uuid k (objects ref)).1 := by
          simp [setObject, hpr]
        rw [hobj] at h1 h2
        rw [hpr]
        cases ht : truthy ((objects ref).lookup "_id") with
        | true =>
          rw [withId_truthy uuid k _ ht] at h1 h2
          refine ⟨fun _ => h1 ht, fun hf => ?_⟩
          cases hf
        | false =>
          rw [withId_falsy uuid k _ ht] at h1 h2
          refine ⟨fun hf => ?_, fun _ => ?_⟩
          · cases hf
          · cases ht2 : truthy ((setProperty (objects ref) "_id"
                (.str (uuid k))).lookup "_id") with
            | true => exact ⟨k, Nat.le_refl k, h1 ht2⟩
            | false =>
              obtain ⟨j, hj, hout⟩ := h2 ht2
              refine ⟨j, by omega, ?_⟩
              rw [hout, setProperty_setProperty]
      · have hobj : setObject objects ref (withId uuid k (objects ref)).1 p.1 =
            objects p.1 := by
          simp [setObject, hpr]
        rw [hobj] at h1 h2
        refine ⟨h1, fun hf => ?_⟩
        obtain ⟨j, hj, hout⟩ := h2 hf
        exact ⟨j, Nat.le_trans hle hj, hout⟩

theorem addedFrom_of_spec (uuid : Nat → String) (item out : Document)
    (h1 : truthy (item.lookup "_id") = true → out = item)
    (h2 : truthy (item.lookup "_id") = false →
      ∃ j, out = setProperty item "_id" (.str (uuid j))) :
    AddedFrom uuid item out := by
  refine ⟨h1, fun hf => ?_⟩
  obtain ⟨j, hout⟩ := h2 hf
  refine ⟨j, hout, ?_, ?_⟩
  · rw [hout, lookup_setProperty]
    simp
  · intro key hkey
    rw [hout, lookup_setProperty]
    simp [hkey]

theorem itemsWithIds_forall₂ (uuid : Nat → String) (objects : Nat → Document) (k : Nat)
    (refs : List Nat) :
    List.Forall₂ (AddedFrom uuid) (refs.map objects) (itemsWithIds uuid objects k refs) := by
  rw [List.forall₂_map_left_iff, List.forall₂_iff_zip]
  refine ⟨(length_itemsWithIds uuid refs objects k).symm, ?_⟩
  intro a b hab
  obtain ⟨h1, h2⟩ := itemsWithIds_spec uuid refs objects k (a, b) hab
  refine addedFrom_of_spec uuid _ _ h1 (fun hf => ?_)
  obtain ⟨j, _, hout⟩ := h2 hf
  exact ⟨j, hout⟩

theorem addOperation_ok_inv (c : List Document) (data : AddData) (config : Config)
    (uuid : Nat → String) (backup : Option (List Document)) (r : OpResult) (s1 : Store)
    (h : addOperation (some data) config uuid { file := some c, backup := backup } = (.ok r, s1)) :
    addItems c uuid data.objects 0 data.refs = .ok r.data ∧ r.count = r.data.length ∧
      s1.file = some (c ++ r.data) := by
  simp only [addOperation, readEntityFile] at h
  cases hadd : addItems c uuid data.objects 0 data.refs with
  | error e =>
    rw [hadd] at h
    cases h
  | ok outs =>
    rw [hadd] at h
    simp only [Prod.mk.injEq, Except.ok.injEq] at h
    obtain ⟨hr, hs⟩ := h
    subst hr
    subst hs
    exact ⟨rfl, rfl, rfl⟩

theorem addOperation_ok_forall₂ (c : List Document) (data : AddData) (uuid : Nat → String)
    (outs : List Document) (h : addItems c uuid data.objects 0 data.refs = .ok outs) :
    List.Forall₂ (AddedFrom uuid) data.itemsToAdd outs := by
  rw [(addItems_ok c uuid data.refs data.objects 0 outs h).1, itemsToAdd_eq_map]
  exact itemsWithIds_forall₂ uuid data.objects 0 data.refs

/-! ## Claims on ADD -/

/-- C5 (counterexample): the document `{_id: "", name: "Ann"}` is added with a
generated `_id` in place of its own: the appended document does not have the
value of its input at `_id`. -/
theorem addOperation_replaces_empty_id :
    List.lookup "_id" emptyIdDoc = some (.str "") ∧
      addOperation (some (.single emptyIdDoc)) defaultConfig sampleUuid
          { file := some [], backup := none } =
        (.ok { data := [[("_id", .str "110ec58a-a0f2-4ac4-8393-c866d813b8d1"),
                          ("name", .str "Ann")]],
               count := 1, message := "Successfully added 1 item(s)" },
         { file := some [[("_id", .str "110ec58a-a0f2-4ac4-8393-c866d813b8d1"),
                          ("name", .str "Ann")]],
           backup := none }) ∧
      List.lookup "_id" [("_id", JVal.str "110ec58a-a0f2-4ac4-8393-c866d813b8d1"),
          ("name", JVal.str "Ann")] ≠ List.lookup "_id" emptyIdDoc := by
  refine ⟨rfl, rfl, ?_⟩
  intro h
  have h2 : some (JVal.str "110ec58a-a0f2-4ac4-8393-c866d813b8d1") = some (JVal.str "") := h
  simp at h2

/-- C5 (amended): when ADD succeeds on a stored collection `c`, the persisted
collection is `c` followed by the returned documents, which are as many as the
input documents and in their order, and count is their number; a returned
document is its input when the `_id` of the input is truthy, and otherwise
(`_id` absent, or one of the empty string, 0, false, null) it is the input with
`_id` set to a generated identifier, every other field unchanged. -/
theorem addOperation_appends (c : List Document) (data : AddData) (config : Config)
    (uuid : Nat → String) (backup : Option (List Document)) (r : OpResult) (s1 : Store)
    (h : addOperation (some data) config uuid { file := some c, backup := backup } = (.ok r, s1)) :
    s1.file = some (c ++ r.data) ∧
      (c ++ r.data).length = c.length + data.itemsToAdd.length ∧
      r.count = data.itemsToAdd.length ∧
      List.Forall₂ (AddedFrom uuid) data.itemsToAdd r.data := by
  obtain ⟨hadd, hcount, hfile⟩ := addOperation_ok_inv c data config uuid backup r s1 h
  have hrel := addOperation_ok_forall₂ c data uuid r.data hadd
  have hlen := hrel.length_eq
  refine ⟨hfile, ?_, ?_, hrel⟩
  · rw [List.length_append, hlen]
  · rw [hcount, hlen]

/-- C5 (witness): adding the single document `{name: "Ann"}` to the sample
collection succeeds and appends it with a generated `_id`. -/
theorem addOperation_appends_witness :
    (addOperation (some (.single annDoc)) defaultConfig sampleUuid
        { file := some sampleCollection, backup := none }).2.file =
      some (sampleCollection ++ [[("name", .str "Ann"),
        ("_id", .str "110ec58a-a0f2-4ac4-8393-c866d813b8d1")]]) :=
  (addOperation_appends sampleCollection (.single annDoc) defaultConfig sampleUuid none
    { data := [[("name", .str "Ann"), ("_id", .str "110ec58a-a0f2-4ac4-8393-c866d813b8d1")]],
      count := 1, message := "Successfully added 1 item(s)" }
    { file := some (sampleCollection ++ [[("name", .str "Ann"),
        ("_id", .str "110ec58a-a0f2-4ac4-8393-c866d813b8d1")]]), backup := none } rfl).1

theorem strictEquals_some_toString (x : Option JVal) (v : JVal)
    (h : strictEquals x (some v) = true) : ∃ s, toStringJS v = .ok s := by
  cases v with
  | null => exact ⟨_, rfl⟩
  | bool b => exact ⟨_, rfl⟩
  | num n => exact ⟨_, rfl⟩
  | str s => exact ⟨_, rfl⟩
  | arr items =>
    cases x with
    | none => simp [strictEquals] at h
    | some y => cases y <;> simp [strictEquals] at h
  | obj fields =>
    cases x with
    | none => simp [strictEquals] at h
    | some y => cases y <;> simp [strictEquals] at h

theorem strictEquals_str_self (id : String) :
    strictEquals (some (.str id)) (some (.str id)) = true := by
  simp [strictEquals]

theorem withId_lookup_some (uuid : Nat → String) (k : Nat) (item : Document) :
    ∃ v, (withId uuid k item).1.lookup "_id" = some v := by
  cases h : truthy (item.lookup "_id") with
  | true =>
    rw [withId_truthy uuid k item h]
    cases hl : item.lookup "_id" with
    | none => rw [hl] at h; simp [truthy] at h
    | some v => exact ⟨v, rfl⟩
  | false =>
    rw [withId_falsy uuid k item h]
    exact ⟨.str (uuid k), by rw [lookup_setProperty]; simp⟩

theorem exists_first (P : Document → Bool) (l : List Document) (h : ∃ x ∈ l, P x = true) :
    ∃ pre x post, l = pre ++ x :: post ∧ (∀ y ∈ pre, P y = false) ∧ P x = true := by
  induction l with
  | nil =>
    obtain ⟨x, hx, _⟩ := h
    cases hx
  | cons a rest ih =>
    cases ha : P a with
    | true => exact ⟨[], a, rest, rfl, by simp, ha⟩
    | false =>
      obtain ⟨x, hx, hpx⟩ := h
      rcases List.mem_cons.1 hx with rfl | hx
      · rw [ha] at hpx
        cases hpx
      · obtain ⟨pre, y, post, hl, hpre, hy⟩ := ih ⟨x, hx, hpx⟩
        refine ⟨a :: pre, y, post, by rw [hl]; rfl, ?_, hy⟩
        intro z hz
        rcases List.mem_cons.1 hz with rfl | hz
        · exact ha
        · exact hpre z hz

theorem forall₂_exists_right (R : Document → Document → Prop) (l1 l2 : List Document)
    (h : List.Forall₂ R l1 l2) (a : Document) (ha : a ∈ l1) : ∃ b ∈ l2, R a b := by
  induction h with
  | nil => cases ha
  | cons hab _ ih =>
    rcases List.mem_cons.1 ha with rfl | ha
    · exact ⟨_, List.mem_cons_self _ _, hab⟩
    · obtain ⟨b, hb, hr⟩ := ih ha
      exact ⟨b, List.mem_cons_of_mem _ hb, hr⟩

theorem addItems_first_duplicate (c : List Document) (uuid : Nat → String)
    (pre : List Document) :
    ∀ refs objects k item post v s,
      itemsWithIds uuid objects k refs = pre ++ item :: post →
      (∀ x ∈ pre, ∀ e ∈ c, strictEquals (e.lookup "_id") (x.lookup "_id") = false) →
      item.lookup "_id" = some v →
      (∃ e ∈ c, strictEquals (e.lookup "_id") (some v) = true) →
      toStringJS v = .ok s →
      addItems c uuid objects k refs = .error (.error ("Duplicate _id: " ++ s)) := by
  induction pre with
  | nil =>
    intro refs objects k item post v s hw _ hv hcol hs
    cases refs with
    | nil => rw [itemsWithIds] at hw; cases hw
    | cons ref rest =>
      rw [itemsWithIds] at hw
      have hhead : (withId uuid k (objects ref)).1 = item := (List.cons.inj hw).1
      obtain ⟨e, he, heq⟩ := hcol
      have hany : c.any (fun existing =>
          strictEquals (existing.lookup "_id")
            ((withId uuid k (objects ref)).1.lookup "_id")) = true := by
        rw [hhead, hv]
        exact List.any_eq_true.2 ⟨e, he, heq⟩
      rw [addItems, hany]
      simp only [if_true]
      rw [hhead, hv]
      simp only
      rw [hs]
  | cons x pre ih =>
    intro refs objects k item post v s hw hpre hv hcol hs
    cases refs with
    | nil => rw [itemsWithIds] at hw; cases hw
    | cons ref rest =>
      rw [itemsWithIds] at hw
      obtain ⟨hhead, htail⟩ := List.cons.inj hw
      have hany : c.any (fun existing =>
          strictEquals (existing.lookup "_id")
            ((withId uuid k (objects ref)).1.lookup "_id")) = false := by
        rw [hhead]
        cases hc : c.any (fun existing =>
            strictEquals (existing.lookup "_id") (x.lookup "_id")) with
        | false => rfl
        | true =>
          obtain ⟨e, he, heq⟩ := List.any_eq_true.1 hc
          rw [hpre x (List.mem_cons_self _ _) e he] at heq
          cases heq
      rw [addItems, hany]
      simp only [Bool.false_eq_true, if_false]
      rw [ih rest _ _ item post v s htail
        (fun y hy => hpre y (List.mem_cons_of_mem _ hy)) hv hcol hs]

theorem itemsWithIds_lookup_some (uuid : Nat → String) (refs : List Nat) :
    ∀ objects k, ∀ x ∈ itemsWithIds uuid objects k refs, ∃ v, x.lookup "_id" = some v := by
  induction refs with
  | nil =>
    intro objects k x hx
    simp [itemsWithIds] at hx
  | cons ref rest ih =>
    intro objects k x hx
    rw [itemsWithIds] at hx
    rcases List.mem_cons.1 hx with rfl | hx
    · exact withId_lookup_some uuid k (objects ref)
    · exact ih _ _ x hx

/-- C6 (counterexample): the stored document and the document of the batch both
carry the `_id` "" (the empty string); ADD does not fail, it stores the
document of the batch under a generated `_id`. -/
theorem addOperation_empty_id_no_failure :
    strictEquals (List.lookup "_id" emptyIdDoc) (List.lookup "_id" emptyIdDoc) = true ∧
      addOperation (some (.many [emptyIdDoc])) defaultConfig sampleUuid
          { file := some [emptyIdDoc], backup := none } =
        (.ok { data := [[("_id", .str "110ec58a-a0f2-4ac4-8393-c866d813b8d1"),
                          ("name", .str "Ann")]],
               count := 1, message := "Successfully added 1 item(s)" },
         { file := some [emptyIdDoc, [("_id", .str "110ec58a-a0f2-4ac4-8393-c866d813b8d1"),
                                      ("name", .str "Ann")]],
           backup := none }) :=
  ⟨rfl, rfl⟩

/-- C6 (amended): when some document of the batch carries a truthy `_id` (for a
string: a non-empty one) that is strictly equal to the `_id` of a document of
the stored collection `c`, ADD fails with the message `Duplicate _id: ` followed
by the first colliding id of the batch. In detail: the documents of the batch,
each taken with its `_id` (the one supplied when truthy, a generated one
otherwise), split into the documents `pre` none of which has the `_id` of a
document of `c`, the first document `item` whose `_id` is that of a document of
`c`, and the rest; the message names the `_id` of `item`, and the store is left
as it was: nothing of the batch is stored, not even `pre`. -/
theorem addOperation_duplicate_fails (c : List Document) (data : AddData) (config : Config)
    (uuid : Nat → String) (backup : Option (List Document))
    (h : ∃ item ∈ data.itemsToAdd, truthy (item.lookup "_id") = true ∧
        ∃ e ∈ c, strictEquals (e.lookup "_id") (item.lookup "_id") = true) :
    List.Forall₂ (AddedFrom uuid) data.itemsToAdd
        (itemsWithIds uuid data.objects 0 data.refs) ∧
      ∃ pre item post v s,
        itemsWithIds uuid data.objects 0 data.refs = pre ++ item :: post ∧
        (∀ x ∈ pre, ∀ e ∈ c, strictEquals (e.lookup "_id") (x.lookup "_id") = false) ∧
        item.lookup "_id" = some v ∧
        (∃ e ∈ c, strictEquals (e.lookup "_id") (some v) = true) ∧
        toStringJS v = .ok s ∧
        addOperation (some data) config uuid { file := some c, backup := backup } =
          (.error (.error ("Duplicate _id: " ++ s)), { file := some c, backup := backup }) := by
  have hrel : List.Forall₂ (AddedFrom uuid) data.itemsToAdd
      (itemsWithIds uuid data.objects 0 data.refs) := by
    rw [itemsToAdd_eq_map]
    exact itemsWithIds_forall₂ uuid data.objects 0 data.refs
  refine ⟨hrel, ?_⟩
  obtain ⟨item, hitem, htruthy, e, he, heq⟩ := h
  obtain ⟨out, hout, hadded⟩ := forall₂_exists_right _ _ _ hrel item hitem
  have houtEq : out = item := hadded.1 htruthy
  subst houtEq
  have hex : ∃ x ∈ itemsWithIds uuid data.objects 0 data.refs,
      c.any (fun existing =>
        strictEquals (existing.lookup "_id") (x.lookup "_id")) = true :=
    ⟨out, hout, List.any_eq_true.2 ⟨e, he, heq⟩⟩
  obtain ⟨pre, x, post, hsplit, hpre, hx⟩ := exists_first _ _ hex
  have hxmem : x ∈ itemsWithIds uuid data.objects 0 data.refs := by
    rw [hsplit]
    simp
  obtain ⟨v, hv⟩ := itemsWithIds_lookup_some uuid data.refs data.objects 0 x hxmem
  obtain ⟨e2, he2, heq2⟩ := List.any_eq_true.1 hx
  rw [hv] at heq2
  obtain ⟨s, hs⟩ := strictEquals_some_toString _ v heq2
  have hpre2 : ∀ y ∈ pre, ∀ e ∈ c,
      strictEquals (e.lookup "_id") (y.lookup "_id") = false :=
    fun y hy => not_any_of_forall c _ (hpre y hy)
  refine ⟨pre, x, post, v, s, hsplit, hpre2, hv, ⟨e2, he2, heq2⟩, hs, ?_⟩
  simp only [addOperation, readEntityFile]
  rw [addItems_first_duplicate c uuid pre data.refs data.objects 0 x post v s hsplit hpre2 hv
    ⟨e2, he2, heq2⟩ hs]

/-- C6 (witness): in the batch `[{name: "Ann"}, turin, rome]` on the sample
collection the documents with the `_id` "2" and "1" both collide; ADD fails,
the message names "2", the first of them, and nothing is stored. -/
theorem addOperation_duplicate_fails_witness :
    (∃ item ∈ (AddData.many [annDoc, turinDoc, romeDoc]).itemsToAdd,
        truthy (item.lookup "_id") = true ∧
        ∃ e ∈ sampleCollection, strictEquals (e.lookup "_id") (item.lookup "_id") = true) ∧
      (∃ pre item post v s,
        itemsWithIds sampleUuid (AddData.many [annDoc, turinDoc, romeDoc]).objects 0
            (AddData.many [annDoc, turinDoc, romeDoc]).refs = pre ++ item :: post ∧
        (∀ x ∈ pre, ∀ e ∈ sampleCollection,
          strictEquals (e.lookup "_id") (x.lookup "_id") = false) ∧
        item.lookup "_id" = some v ∧
        (∃ e ∈ sampleCollection, strictEquals (e.lookup "_id") (some v) = true) ∧
        toStringJS v = .ok s ∧
        addOperation (some (.many [annDoc, turinDoc, romeDoc])) defaultConfig sampleUuid
            { file := some sampleCollection, backup := none } =
          (.error (.error ("Duplicate _id: " ++ s)),
            { file := some sampleCollection, backup := none })) ∧
      addOperation (some (.many [annDoc, turinDoc, romeDoc])) defaultConfig sampleUuid
          { file := some sampleCollection, backup := none } =
        (.error (.error "Duplicate _id: 2"), { file := some sampleCollection, backup := none }) :=
  have hcollide : ∃ item ∈ (AddData.many [annDoc, turinDoc, romeDoc]).itemsToAdd,
      truthy (item.lookup "_id") = true ∧
      ∃ e ∈ sampleCollection, strictEquals (e.lookup "_id") (item.lookup "_id") = true :=
    ⟨romeDoc, by simp [AddData.itemsToAdd], rfl, romeDoc, by simp [sampleCollection], rfl⟩
  ⟨hcollide, (addOperation_duplicate_fails sampleCollection (.many [annDoc, turinDoc, romeDoc])
    defaultConfig sampleUuid none hcollide).2, rfl⟩

theorem withId_out_truthy (uuid : Nat → String) (hne : ∀ k, uuid k ≠ "") (k : Nat)
    (item : Document) : truthy ((withId uuid k item).1.lookup "_id") = true := by
  cases h : truthy (item.lookup "_id") with
  | true =>
    rw [withId_truthy uuid k item h]
    exact h
  | false =>
    rw [withId_falsy uuid k item h, lookup_setProperty]
    simp [truthy, hne k]

theorem lookup_id_withId_falsy (uuid : Nat → String) (k : Nat) (item : Document)
    (h : truthy (item.lookup "_id") = false) :
    (withId uuid k item).1.lookup "_id" = some (.str (uuid k)) ∧
      (withId uuid k item).2 = k + 1 := by
  rw [withId_falsy uuid k item h, lookup_setProperty]
  simp

theorem itemsWithIds_shared (uuid : Nat → String) (hne : ∀ k, uuid k ≠ "")
    (refs : List Nat) :
    ∀ objects k, List.Pairwise (fun p q : Nat × Document => p.1 = q.1 → q.2 = p.2)
      (refs.zip (itemsWithIds uuid objects k refs)) := by
  induction refs with
  | nil =>
    intro objects k
    simp [itemsWithIds]
  | cons ref rest ih =>
    intro objects k
    rw [itemsWithIds, List.zip_cons_cons, List.pairwise_cons]
    refine ⟨?_, ih _ _⟩
    intro q hq hqr
    have hspec := (itemsWithIds_spec uuid rest _ _ q hq).1
    have hobj : setObject objects ref (withId uuid k (objects ref)).1 q.1 =
        (withId uuid k (objects ref)).1 := by
      simp [setObject, ← hqr]
    rw [hobj] at hspec
    exact hspec (withId_out_truthy uuid hne k (objects ref))

theorem itemsWithIds_distinct (uuid : Nat → String) (hinj : Function.Injective uuid)
    (refs : List Nat) :
    ∀ objects k,
      (∀ j, k ≤ j → ∀ i ∈ refs, (objects i).lookup "_id" ≠ some (.str (uuid j))) →
      List.Pairwise (fun p q : Nat × Document => p.1 ≠ q.1 →
          ((∃ j, k ≤ j ∧ p.2.lookup "_id" = some (.str (uuid j))) ∨
            (∃ j, k ≤ j ∧ q.2.lookup "_id" = some (.str (uuid j)))) →
          p.2.lookup "_id" ≠ q.2.lookup "_id")
        (refs.zip (itemsWithIds uuid objects k refs)) := by
  induction refs with
  | nil =>
    intro objects k _
    simp [itemsWithIds]
  | cons ref rest ih =>
    intro objects k hfresh
    have hle := withId_counter_le uuid k (objects ref)
    have hidset : ∀ (item : Document) (j : Nat),
        (setProperty item "_id" (.str (uuid j))).lookup "_id" = some (.str (uuid j)) := by
      intro item j
      rw [lookup_setProperty]
      simp
    -- the `_id` of an element of the tail that is another object
    have hother : ∀ q ∈ rest.zip (itemsWithIds uuid
          (setObject objects ref (withId uuid k (objects ref)).1)
          (withId uuid k (objects ref)).2 rest), q.1 ≠ ref →
        (q.2 = objects q.1 ∧ truthy ((objects q.1).lookup "_id") = true) ∨
          ∃ j, (withId uuid k (objects ref)).2 ≤ j ∧
            q.2.lookup "_id" = some (.str (uuid j)) := by
      intro q hq hqr
      obtain ⟨h1, h2⟩ := itemsWithIds_spec uuid rest _ _ q hq
      have hobj : setObject objects ref (withId uuid k (objects ref)).1 q.1 =
          objects q.1 := by
        simp [setObject, hqr]
      rw [hobj] at h1 h2
      cases ht : truthy ((objects q.1).lookup "_id") with
      | true => exact Or.inl ⟨h1 ht, rfl⟩
      | false =>
        obtain ⟨j, hj, hout⟩ := h2 ht
        exact Or.inr ⟨j, hj, by rw [hout]; exact hidset _ j⟩
    have hfreshTail : ∀ j, (withId uuid k (objects ref)).2 ≤ j → ∀ i ∈ rest,
        (setObject objects ref (withId uuid k (objects ref)).1 i).lookup "_id" ≠
          some (.str (uuid j)) := by
      intro j hj i hi
      by_cases hir : i = ref
      · have hobj : setObject objects ref (withId uuid k (objects ref)).1 i =
            (withId uuid k (objects ref)).1 := by
          simp [setObject, hir]
        rw [hobj]
        cases ht : truthy ((objects ref).lookup "_id") with
        | true =>
          rw [withId_truthy uuid k _ ht]
          exact hfresh j (Nat.le_trans hle hj) ref (List.mem_cons_self _ _)
        | false =>
          obtain ⟨hid, hk⟩ := lookup_id_withId_falsy uuid k _ ht
          rw [hid]
          intro heq
          have huu : uuid k = uuid j := by
            simpa using heq
          have hkj := hinj huu
          omega
      · have hobj : setObject objects ref (withId uuid k (objects ref)).1 i = objects i := by
          simp [setObject, hir]
        rw [hobj]
        exact hfresh j (Nat.le_trans hle hj) i (List.mem_cons_of_mem _ hi)
    have hpair := ih _ _ hfreshTail
    -- an element of the tail that is another object has not the `_id` `uuid k`
    have hnotk : truthy ((objects ref).lookup "_id") = false →
        ∀ q ∈ rest.zip (itemsWithIds uuid
          (setObject objects ref (withId uuid k (objects ref)).1)
          (withId uuid k (objects ref)).2 rest), q.1 ≠ ref →
        q.2.lookup "_id" ≠ some (.str (uuid k)) := by
      intro ht q hq hqr
      have hqmem : q.1 ∈ rest := (List.of_mem_zip (a := q.1) (b := q.2) hq).1
      rcases hother q hq hqr with ⟨hq2, _⟩ | ⟨j, hj, hid⟩
      · rw [hq2]
        exact hfresh k (Nat.le_refl k) q.1 (List.mem_cons_of_mem _ hqmem)
      · rw [hid]
        intro heq
        have huu : uuid j = uuid k := by
          simpa using heq
        have hkj := hinj huu
        have hk := (lookup_id_withId_falsy uuid k _ ht).2
        omega
    rw [itemsWithIds, List.zip_cons_cons, List.pairwise_cons]
    constructor
    · intro q hq hne hor
      have hqr : q.1 ≠ ref := fun heq => hne heq.symm
      show (withId uuid k (objects ref)).1.lookup "_id" ≠ q.2.lookup "_id"
      cases ht : truthy ((objects ref).lookup "_id") with
      | true =>
        rw [withId_truthy uuid k _ ht]
        rcases hor with ⟨j, hj, hid⟩ | ⟨j, hj, hid⟩
        · exact absurd hid (by
            show (withId uuid k (objects ref)).1.lookup "_id" ≠ _
            rw [withId_truthy uuid k _ ht]
            exact hfresh j hj ref (List.mem_cons_self _ _))
        · rw [hid]
          exact hfresh j hj ref (List.mem_cons_self _ _)
      | false =>
        rw [(lookup_id_withId_falsy uuid k _ ht).1]
        exact fun heq => hnotk ht q hq hqr heq.symm
    · refine List.Pairwise.imp_of_mem ?_ hpair
      intro p q hp hq hR hne hor
      cases ht : truthy ((objects ref).lookup "_id") with
      | true =>
        have hk : (withId uuid k (objects ref)).2 = k := by
          rw [withId_truthy uuid k _ ht]
        rw [hk] at hR
        exact hR hne hor
      | false =>
        have hk := (lookup_id_withId_falsy uuid k _ ht).2
        rw [hk] at hR
        -- either identifier is `uuid k`, or both are later ones
        have hcase : ∀ x : Nat × Document, (∃ j, k ≤ j ∧ x.2.lookup "_id" = some (.str (uuid j))) →
            x.2.lookup "_id" = some (.str (uuid k)) ∨
              ∃ j, k + 1 ≤ j ∧ x.2.lookup "_id" = some (.str (uuid j)) := by
          intro x hx
          obtain ⟨j, hj, hid⟩ := hx
          by_cases hjk : j = k
          · subst hjk
            exact Or.inl hid
          · exact Or.inr ⟨j, by omega, hid⟩
        rcases hor with hor | hor
        · rcases hcase p hor with hpk | hlater
          · have hpr : p.1 = ref := by
              by_contra hpr
              exact hnotk ht p hp hpr hpk
            have hqr : q.1 ≠ ref := fun heq => hne (hpr.trans heq.symm)
            rw [hpk]
            exact fun heq => hnotk ht q hq hqr heq.symm
          · exact hR hne (Or.inl hlater)
        · rcases hcase q hor with hqk | hlater
          · have hqr : q.1 = ref := by
              by_contra hqr
              exact hnotk ht q hq hqr hqk
            have hpr : p.1 ≠ ref := fun heq => hne (heq.trans hqr.symm)
            rw [hqk]
            exact hnotk ht p hp hpr
          · exact hR hne (Or.inr hlater)

theorem pairwise_zip_fst (R : Nat → Nat → Prop) (l : List Nat) (h : l.Pairwise R) :
    ∀ outs : List Document,
      List.Pairwise (fun p q : Nat × Document => R p.1 q.1) (l.zip outs) := by
  induction h with
  | nil =>
    intro outs
    simp
  | cons hhead _ ih =>
    intro outs
    cases outs with
    | nil => simp
    | cons out outs =>
      rw [List.zip_cons_cons, List.pairwise_cons]
      refine ⟨?_, ih outs⟩
      intro q hq
      exact hhead q.1 (List.of_mem_zip (a := q.1) (b := q.2) hq).1

/-- C7 (counterexample): the batch `[ann, ann]` in which the one object
`ann = {name: "Ann"}`, supplied without `_id`, is listed twice is added with
success, with identifiers that are non-empty and pairwise distinct: the
assignment of the generated `_id` changes the object itself, so no second
identifier is generated and two documents are stored with the same `_id`. -/
theorem addOperation_shared_object_one_id :
    annTwice.itemsToAdd = [annDoc, annDoc] ∧ List.lookup "_id" annDoc = none ∧
      addOperation (some annTwice) defaultConfig countingUuid
          { file := some [], backup := none } =
        (.ok { data := [[("name", .str "Ann"), ("_id", .str "f")],
                        [("name", .str "Ann"), ("_id", .str "f")]],
               count := 2, message := "Successfully added 2 item(s)" },
         { file := some [[("name", .str "Ann"), ("_id", .str "f")],
                         [("name", .str "Ann"), ("_id", .str "f")]],
           backup := none }) :=
  ⟨rfl, rfl, rfl⟩

/-- C7 (amended): provided the identifiers returned by `uuidv4` are non-empty,
pairwise distinct and different from every `_id` supplied in the batch, after a
successful ADD every document supplied without a truthy `_id` is stored with a
generated non-empty `_id` that no previously stored document has (this is
checked by ADD); two documents of the batch that are different objects, one of
them supplied without a truthy `_id`, are stored with different `_id`s; an
object that is listed twice in the batch is stored twice as the same document,
hence with one `_id`. So, when no object is listed twice, no other document of
the batch is stored with the `_id` generated for a document. -/
theorem addOperation_generated_ids_unique (c : List Document) (data : AddData)
    (config : Config) (uuid : Nat → String) (backup : Option (List Document))
    (r : OpResult) (s1 : Store)
    (hne : ∀ k, uuid k ≠ "") (hinj : Function.Injective uuid)
    (hfresh : ∀ k, ∀ item ∈ data.itemsToAdd, item.lookup "_id" ≠ some (.str (uuid k)))
    (h : addOperation (some data) config uuid { file := some c, backup := backup } = (.ok r, s1)) :
    s1.file = some (c ++ r.data) ∧
      r.data.length = data.itemsToAdd.length ∧
      (∀ p ∈ data.itemsToAdd.zip r.data, truthy (p.1.lookup "_id") = false →
        ∃ id, id ≠ "" ∧ p.2.lookup "_id" = some (.str id) ∧
          ∀ e ∈ c, e.lookup "_id" ≠ some (.str id)) ∧
      List.Pairwise (fun p q : Nat × Document => p.1 ≠ q.1 →
          DistinctIds (data.objects p.1, p.2) (data.objects q.1, q.2))
        (data.refs.zip r.data) ∧
      List.Pairwise (fun p q : Nat × Document => p.1 = q.1 → q.2 = p.2)
        (data.refs.zip r.data) ∧
      (data.refs.Nodup → List.Pairwise DistinctIds (data.itemsToAdd.zip r.data)) := by
  obtain ⟨hadd, _, hfile⟩ := addOperation_ok_inv c data config uuid backup r s1 h
  obtain ⟨heq, hold⟩ := addItems_ok c uuid data.refs data.objects 0 r.data hadd
  have hrel := addOperation_ok_forall₂ c data uuid r.data hadd
  have hlen := hrel.length_eq
  have hfresh0 : ∀ j, 0 ≤ j → ∀ i ∈ data.refs,
      (data.objects i).lookup "_id" ≠ some (.str (uuid j)) := by
    intro j _ i hi
    apply hfresh j
    rw [itemsToAdd_eq_map]
    exact List.mem_map.2 ⟨i, hi, rfl⟩
  have hdistinct : List.Pairwise (fun p q : Nat × Document => p.1 ≠ q.1 →
      DistinctIds (data.objects p.1, p.2) (data.objects q.1, q.2))
      (data.refs.zip r.data) := by
    rw [heq]
    refine List.Pairwise.imp_of_mem ?_
      (itemsWithIds_distinct uuid hinj data.refs data.objects 0 hfresh0)
    intro p q hp hq hR hpq hor
    have hgen : ∀ x ∈ data.refs.zip (itemsWithIds uuid data.objects 0 data.refs),
        truthy ((data.objects x.1).lookup "_id") = false →
        ∃ j, 0 ≤ j ∧ x.2.lookup "_id" = some (.str (uuid j)) := by
      intro x hx hf
      obtain ⟨j, hj, hout⟩ := (itemsWithIds_spec uuid data.refs data.objects 0 x hx).2 hf
      refine ⟨j, hj, ?_⟩
      rw [hout, lookup_setProperty]
      simp
    apply hR hpq
    rcases hor with hor | hor
    · exact Or.inl (hgen p hp hor)
    · exact Or.inr (hgen q hq hor)
  refine ⟨hfile, hlen.symm, ?_, hdistinct, ?_, ?_⟩
  · intro p hp hf
    have hadded : AddedFrom uuid p.1 p.2 := (List.forall₂_iff_zip.1 hrel).2 hp
    obtain ⟨j, _, hid, _⟩ := hadded.2 hf
    refine ⟨uuid j, hne j, hid, ?_⟩
    intro e he heq2
    have hout : p.2 ∈ r.data := (List.of_mem_zip (a := p.1) (b := p.2) hp).2
    have hse := hold e he p.2 hout
    rw [hid, heq2, strictEquals_str_self] at hse
    cases hse
  · rw [heq]
    exact itemsWithIds_shared uuid hne data.refs data.objects 0
  · intro hnodup
    have hboth := (pairwise_zip_fst (fun a b => a ≠ b) data.refs hnodup r.data).and hdistinct
    rw [itemsToAdd_eq_map, List.zip_map_left, List.pairwise_map]
    exact hboth.imp (fun hab => hab.2 hab.1)

theorem countingUuid_ne_empty (k : Nat) : countingUuid k ≠ "" := by
  intro h
  have hlen := congrArg String.length h
  simp [countingUuid, String.length] at hlen

theorem countingUuid_injective : Function.Injective countingUuid := by
  intro a b h
  have hlen := congrArg String.length h
  simpa [countingUuid, String.length] using hlen

theorem countingUuid_ne_two (k : Nat) : JVal.str "2" ≠ JVal.str (countingUuid k) := by
  intro h
  have hdata : "2".data = (countingUuid k).data := congrArg String.data (JVal.str.inj h)
  simp [countingUuid, List.replicate_succ] at hdata

/-- C7 (witness): with an injective generator of non-empty identifiers, the batch
`[{name: "Ann"}, turin, {name: "Bob"}]` of three different objects is added to
the collection `[rome]`; the two documents supplied without `_id` are stored
with the identifiers "f" and "ff", and the `_id`s of the three are distinct. -/
theorem addOperation_generated_ids_unique_witness :
    (∀ k, countingUuid k ≠ "") ∧ Function.Injective countingUuid ∧
      (∀ k, ∀ item ∈ (AddData.many [annDoc, turinDoc, bobDoc]).itemsToAdd,
        item.lookup "_id" ≠ some (.str (countingUuid k))) ∧
      (AddData.many [annDoc, turinDoc, bobDoc]).refs.Nodup ∧
      (addOperation (some (.many [annDoc, turinDoc, bobDoc])) defaultConfig countingUuid
          { file := some [romeDoc], backup := none }).2.file =
        some ([romeDoc] ++ [[("name", .str "Ann"), ("_id", .str "f")], turinDoc,
          [("name", .str "Bob"), ("_id", .str "ff")]]) ∧
      List.Pairwise DistinctIds ((AddData.many [annDoc, turinDoc, bobDoc]).itemsToAdd.zip
        [[("name", .str "Ann"), ("_id", .str "f")], turinDoc,
          [("name", .str "Bob"), ("_id", .str "ff")]]) :=
  have hfresh : ∀ k, ∀ item ∈ (AddData.many [annDoc, turinDoc, bobDoc]).itemsToAdd,
      item.lookup "_id" ≠ some (.str (countingUuid k)) := by
    intro k item hitem
    simp only [AddData.itemsToAdd, List.mem_cons, List.mem_singleton, List.not_mem_nil,
      or_false] at hitem
    rcases hitem with rfl | rfl | rfl
    · simp [annDoc, List.lookup]
    · intro heq
      exact countingUuid_ne_two k (Option.some.inj heq)
    · simp [bobDoc, List.lookup]
  have hnodup : (AddData.many [annDoc, turinDoc, bobDoc]).refs.Nodup := by
    decide
  have hall := addOperation_generated_ids_unique [romeDoc] (.many [annDoc, turinDoc, bobDoc])
    defaultConfig countingUuid none
    { data := [[("name", .str "Ann"), ("_id", .str "f")], turinDoc,
        [("name", .str "Bob"), ("_id", .str "ff")]], count := 3,
      message := "Successfully added 3 item(s)" }
    { file := some ([romeDoc] ++ [[("name", .str "Ann"), ("_id", .str "f")], turinDoc,
        [("name", .str "Bob"), ("_id", .str "ff")]]), backup := none }
    countingUuid_ne_empty countingUuid_injective hfresh rfl
  ⟨countingUuid_ne_empty, countingUuid_injective, hfresh, hnodup, hall.1,
    hall.2.2.2.2.2 hnodup⟩

/-! ## UPDATE and DELETE: lemmas -/

theorem lookup_filter_ne_self (key : String) (item : Document) :
    List.lookup key (item.filter (fun p => p.1 != key)) = none := by
  induction item with
  | nil => rfl
  | cons p rest ih =>
    obtain ⟨a, b⟩ := p
    by_cases ha : a = key
    · rw [List.filter_cons_of_neg (by simp [ha]), ih]
    · rw [List.filter_cons_of_pos (by simp [ha]),
        lookup_cons_ne key a b _ (fun h => ha h.symm), ih]

theorem lookup_filter_ne_other (key k : String) (hk : k ≠ key) (item : Document) :
    List.lookup k (item.filter (fun p => p.1 != key)) = List.lookup k item := by
  induction item with
  | nil => rfl
  | cons p rest ih =>
    obtain ⟨a, b⟩ := p
    by_cases ha : a = key
    · rw [List.filter_cons_of_neg (by simp [ha]), ih,
        lookup_cons_ne k a b _ (fun h => hk (h.trans ha))]
    · rw [List.filter_cons_of_pos (by simp [ha])]
      by_cases hka : k = a
      · subst hka
        rw [lookup_cons_eq, lookup_cons_eq]
      · rw [lookup_cons_ne k a b _ hka, lookup_cons_ne k a b _ hka, ih]

theorem lookup_assignProperty_self (item : Document) (key : String) (v : Option JVal) :
    List.lookup key (assignProperty item key v) = v := by
  cases v with
  | none => exact lookup_filter_ne_self key item
  | some value =>
    show List.lookup key (setProperty item key value) = some value
    rw [lookup_setProperty]
    simp

theorem lookup_assignProperty_other (item : Document) (key k : String) (hk : k ≠ key)
    (v : Option JVal) :
    List.lookup k (assignProperty item key v) = List.lookup k item := by
  cases v with
  | none => exact lookup_filter_ne_other key k hk item
  | some value =>
    show List.lookup k (setProperty item key value) = List.lookup k item
    rw [lookup_setProperty]
    simp [hk]

theorem lookup_none_of_not_mem_keys (k : String) (data : Document)
    (h : k ∉ data.map Prod.fst) : List.lookup k data = none := by
  induction data with
  | nil => rfl
  | cons p rest ih =>
    obtain ⟨a, b⟩ := p
    simp only [List.map_cons, List.mem_cons, not_or] at h
    rw [lookup_cons_ne k a b _ h.1, ih h.2]

theorem lookup_spreadMerge (data : Document) (hnodup : (data.map Prod.fst).Nodup) :
    ∀ (item : Document) (k : String), List.lookup k (spreadMerge item data) =
      match List.lookup k data with
      | some v => some v
      | none => List.lookup k item := by
  induction data with
  | nil =>
    intro item k
    rfl
  | cons p rest ih =>
    obtain ⟨a, b⟩ := p
    intro item k
    simp only [List.map_cons, List.nodup_cons] at hnodup
    have hstep : spreadMerge item ((a, b) :: rest) = spreadMerge (setProperty item a b) rest := rfl
    rw [hstep, ih hnodup.2, lookup_setProperty]
    by_cases hka : k = a
    · subst hka
      rw [lookup_cons_eq, lookup_none_of_not_mem_keys k rest hnodup.1]
      simp
    · rw [lookup_cons_ne k a b _ hka]
      simp [hka]

theorem lookup_id_updatedItem (item data : Document) :
    List.lookup "_id" (updatedItem item data) = List.lookup "_id" item :=
  lookup_assignProperty_self _ _ _

theorem isMatch_of_ok (f : JVal) (item : Document) (b : Bool)
    (h : matchesFilters (.obj item) f = .ok b) : isMatch f item = b := by
  unfold isMatch
  rw [h]
  cases b <;> rfl

theorem updateItems_ok (data : Document) (f : JVal) (c : List Document) :
    ∀ newData updated, updateItems data f c = .ok (newData, updated) →
      newData = c.map (fun item => if isMatch f item then updatedItem item data else item) ∧
      updated = (c.filter (isMatch f)).map (fun item => updatedItem item data) := by
  induction c with
  | nil =>
    intro newData updated h
    rw [updateItems] at h
    cases h
    exact ⟨rfl, rfl⟩
  | cons item rest ih =>
    intro newData updated h
    rw [updateItems] at h
    cases hm : matchesFilters (.obj item) f with
    | error e =>
      rw [hm] at h
      cases h
    | ok b =>
      rw [hm] at h
      simp only at h
      cases hrest : updateItems data f rest with
      | error e =>
        rw [hrest] at h
        cases h
      | ok res =>
        obtain ⟨nd, up⟩ := res
        rw [hrest] at h
        simp only at h
        obtain ⟨hnd, hup⟩ := ih nd up hrest
        have hb := isMatch_of_ok f item b hm
        cases b with
        | true =>
          simp only [if_true] at h
          cases h
          simp [hb, hnd, hup]
        | false =>
          simp only [Bool.false_eq_true, if_false] at h
          cases h
          simp [hb, hnd, hup]

theorem updateOperation_ok_inv (c : List Document) (data : Document) (f : JVal)
    (config : Config) (backup : Option (List Document)) (r : OpResult) (s1 : Store)
    (h : updateOperation (some data) (some f) config { file := some c, backup := backup } =
      (.ok r, s1)) :
    ∃ newData, updateItems data f c = .ok (newData, r.data) ∧ r.count = r.data.length ∧
      s1.file = some newData := by
  simp only [updateOperation, readEntityFile] at h
  cases hno : noFilters (some f) with
  | true =>
    rw [hno] at h
    simp at h
  | false =>
    rw [hno] at h
    simp only [Bool.false_eq_true, if_false] at h
    cases hup : updateItems data f c with
    | error e =>
      rw [hup] at h
      cases h
    | ok res =>
      obtain ⟨nd, up⟩ := res
      rw [hup] at h
      simp only [Prod.mk.injEq, Except.ok.injEq] at h
      obtain ⟨hr, hs⟩ := h
      subst hr
      subst hs
      exact ⟨nd, rfl, rfl, rfl⟩

theorem zip_map_filter_snd (m : Document → Bool) (g : Document → Document)
    (c : List Document) :
    ((c.zip (c.map g)).filter (fun p => m p.1)).map Prod.snd = (c.filter m).map g := by
  induction c with
  | nil => rfl
  | cons item rest ih =>
    rw [List.map_cons, List.zip_cons_cons]
    cases hm : m item with
    | true =>
      rw [List.filter_cons_of_pos (by simpa using hm), List.filter_cons_of_pos (by simpa using hm),
        List.map_cons, List.map_cons, ih]
    | false =>
      rw [List.filter_cons_of_neg (by simpa using hm), List.filter_cons_of_neg (by simpa using hm),
        ih]

/-! ## Claims on UPDATE and DELETE -/

/-- C8: with a filter that is absent or has no keys, UPDATE and DELETE fail with a
validation error (UPDATE with the error on the data when the data is absent
too), and the file system is left as it was, a missing entity file included. -/
theorem update_delete_require_filters (data : Option Document) (filters : Option JVal)
    (config : Config) (s : Store)
    (h : filters = none ∨ ∃ f, filters = some f ∧ ownEntries f = []) :
    updateOperation data filters config s =
        (.error (.error (match data with
          | none => "Data is required for UPDATE operation"
          | some _ => "Filters are required for UPDATE operation (safety measure)")), s) ∧
      deleteOperation filters config s =
        (.error (.error "Filters are required for DELETE operation (safety measure)"), s) := by
  rcases h with rfl | ⟨f, rfl, hf⟩
  · cases data <;> exact ⟨rfl, rfl⟩
  · have hno := (noFilters_iff f).2 hf
    cases data <;> simp [updateOperation, deleteOperation, hno]

/-- C8 (witness): UPDATE and DELETE with the filter `{}` on an entity whose file
does not exist fail, and the file still does not exist. -/
theorem update_delete_require_filters_witness :
    (some (JVal.obj []) = none ∨ ∃ f, some (JVal.obj []) = some f ∧ ownEntries f = []) ∧
      updateOperation (some ageData) (some (.obj [])) defaultConfig
          { file := none, backup := none } =
        (.error (.error "Filters are required for UPDATE operation (safety measure)"),
          { file := none, backup := none }) ∧
      deleteOperation (some (.obj [])) defaultConfig { file := none, backup := none } =
        (.error (.error "Filters are required for DELETE operation (safety measure)"),
          { file := none, backup := none }) :=
  have hempty : some (JVal.obj []) = none ∨
      ∃ f, some (JVal.obj []) = some f ∧ ownEntries f = [] :=
    Or.inr ⟨.obj [], rfl, rfl⟩
  ⟨hempty, update_delete_require_filters (some ageData) (some (.obj [])) defaultConfig
    { file := none, backup := none } hempty⟩

/-- C9: after a successful UPDATE the `_id` values of the persisted collection
are, position by position, those of the collection before, whatever `data`
holds at `_id`; and the returned documents have, in order, the `_id` values of
the documents that match the filter. -/
theorem updateOperation_preserves_ids (c : List Document) (data : Document) (f : JVal)
    (config : Config) (backup : Option (List Document)) (r : OpResult) (s1 : Store)
    (h : updateOperation (some data) (some f) config { file := some c, backup := backup } =
      (.ok r, s1)) :
    ∃ newData, s1.file = some newData ∧
      newData.map (List.lookup "_id") = c.map (List.lookup "_id") ∧
      r.data.map (List.lookup "_id") = (c.filter (isMatch f)).map (List.lookup "_id") := by
  obtain ⟨newData, hup, _, hfile⟩ := updateOperation_ok_inv c data f config backup r s1 h
  obtain ⟨hnd, hdata⟩ := updateItems_ok data f c newData r.data hup
  refine ⟨newData, hfile, ?_, ?_⟩
  · rw [hnd, List.map_map]
    apply List.map_congr_left
    intro item _
    show List.lookup "_id" (if isMatch f item then updatedItem item data else item) = _
    cases isMatch f item
    · rfl
    · exact lookup_id_updatedItem item data
  · rw [hdata, List.map_map]
    apply List.map_congr_left
    intro item _
    exact lookup_id_updatedItem item data

/-- C9 (witness): the UPDATE of the documents of Turin with the data `{_id: "9",
age: 21}` succeeds and the persisted `_id` values are still "1" and "2". -/
theorem updateOperation_preserves_ids_witness :
    ∃ newData,
      (updateOperation (some ageData) (some cityTurin) defaultConfig
          { file := some sampleCollection, backup := none }).2.file = some newData ∧
      newData.map (List.lookup "_id") = sampleCollection.map (List.lookup "_id") ∧
      [[("_id", JVal.str "2"), ("age", JVal.num 21), ("city", JVal.str "Turin")]].map
          (List.lookup "_id") =
        (sampleCollection.filter (isMatch cityTurin)).map (List.lookup "_id") :=
  updateOperation_preserves_ids sampleCollection ageData cityTurin defaultConfig none
    { data := [[("_id", .str "2"), ("age", .num 21), ("city", .str "Turin")]], count := 1,
      message := "Successfully updated 1 item(s)" }
    { file := some [romeDoc, [("_id", .str "2"), ("age", .num 21), ("city", .str "Turin")]],
      backup := none } rfl

/-- C10: after a successful UPDATE with a data object (its keys are distinct), the
persisted collection has the length of the collection before and, position by
position, holds the same document where the filter does not match, and where it
matches a document with the original `_id`, the value of `data` at every other
key of `data` and the original value at every key that `data` has not; the
returned data is the list of these updated documents in the order of the
collection and count is the number of documents that match. -/
theorem updateOperation_frame (c : List Document) (data : Document) (f : JVal)
    (config : Config) (backup : Option (List Document)) (r : OpResult) (s1 : Store)
    (hkeys : (data.map Prod.fst).Nodup)
    (h : updateOperation (some data) (some f) config { file := some c, backup := backup } =
      (.ok r, s1)) :
    ∃ newData, s1.file = some newData ∧ newData.length = c.length ∧
      List.Forall₂ (UpdatedFrom f data) c newData ∧
      r.data = ((c.zip newData).filter (fun p => isMatch f p.1)).map Prod.snd ∧
      r.count = (c.filter (isMatch f)).length := by
  obtain ⟨newData, hup, hcount, hfile⟩ := updateOperation_ok_inv c data f config backup r s1 h
  obtain ⟨hnd, hdata⟩ := updateItems_ok data f c newData r.data hup
  refine ⟨newData, hfile, ?_, ?_, ?_, ?_⟩
  · rw [hnd, List.length_map]
  · rw [hnd, List.forall₂_map_right_iff]
    apply List.forall₂_same.2
    intro item _
    constructor
    · intro hm
      simp [hm]
    · intro hm
      simp only [hm, if_true]
      refine ⟨lookup_id_updatedItem item data, fun key hkey => ?_⟩
      have hlook : List.lookup key (updatedItem item data) =
          match List.lookup key data with
          | some v => some v
          | none => List.lookup key item := by
        unfold updatedItem
        rw [lookup_assignProperty_other _ _ _ hkey, lookup_spreadMerge data hkeys]
      constructor
      · intro v hv
        rw [hlook, hv]
      · intro hnone
        rw [hlook, hnone]
  · rw [hdata, hnd, zip_map_filter_snd]
    apply List.map_congr_left
    intro item hitem
    have hm := (List.mem_filter.1 hitem).2
    simp [hm]
  · rw [hcount, hdata, List.length_map]

/-- C10 (witness): the UPDATE of the documents of Turin with the data `{_id: "9",
age: 21}` leaves the document of Rome as it is and returns one document. -/
theorem updateOperation_frame_witness :
    (ageData.map Prod.fst).Nodup ∧
      ∃ newData,
        (updateOperation (some ageData) (some cityTurin) defaultConfig
            { file := some sampleCollection, backup := none }).2.file = some newData ∧
        newData.length = sampleCollection.length ∧
        List.Forall₂ (UpdatedFrom cityTurin ageData) sampleCollection newData ∧
        [[("_id", JVal.str "2"), ("age", JVal.num 21), ("city", JVal.str "Turin")]] =
          ((sampleCollection.zip newData).filter
            (fun p => isMatch cityTurin p.1)).map Prod.snd ∧
        1 = (sampleCollection.filter (isMatch cityTurin)).length :=
  have hkeys : (ageData.map Prod.fst).Nodup := by decide
  ⟨hkeys, updateOperation_frame sampleCollection ageData cityTurin defaultConfig none
    { data := [[("_id", .str "2"), ("age", .num 21), ("city", .str "Turin")]], count := 1,
      message := "Successfully updated 1 item(s)" }
    { file := some [romeDoc, [("_id", .str "2"), ("age", .num 21), ("city", .str "Turin")]],
      backup := none } hkeys rfl⟩

/-! ## DELETE: lemmas -/

theorem deleteItems_ok (f : JVal) (c : List Document) :
    ∀ kept deleted, deleteItems f c = .ok (kept, deleted) →
      (∀ d ∈ c, ∃ b, matchesFilters (.obj d) f = .ok b) ∧
      kept = c.filter (fun d => !isMatch f d) ∧
      deleted = c.filter (isMatch f) := by
  induction c with
  | nil =>
    intro kept deleted h
    rw [deleteItems] at h
    cases h
    exact ⟨by simp, rfl, rfl⟩
  | cons item rest ih =>
    intro kept deleted h
    rw [deleteItems] at h
    cases hm : matchesFilters (.obj item) f with
    | error e =>
      rw [hm] at h
      cases h
    | ok b =>
      rw [hm] at h
      simp only at h
      cases hrest : deleteItems f rest with
      | error e =>
        rw [hrest] at h
        cases h
      | ok res =>
        obtain ⟨nd, del⟩ := res
        rw [hrest] at h
        simp only at h
        obtain ⟨hall, hnd, hdel⟩ := ih nd del hrest
        have hb := isMatch_of_ok f item b hm
        have hall2 : ∀ d ∈ item :: rest, ∃ b, matchesFilters (.obj d) f = .ok b := by
          intro d hd
          rcases List.mem_cons.1 hd with rfl | hd
          · exact ⟨b, hm⟩
          · exact hall d hd
        cases b with
        | true =>
          simp only [if_true] at h
          cases h
          exact ⟨hall2, by simp [hb, hnd], by simp [hb, hdel]⟩
        | false =>
          simp only [Bool.false_eq_true, if_false] at h
          cases h
          exact ⟨hall2, by simp [hb, hnd], by simp [hb, hdel]⟩

theorem deleteOperation_ok_inv (c : List Document) (f : JVal) (config : Config)
    (backup : Option (List Document)) (r : OpResult) (s1 : Store)
    (h : deleteOperation (some f) config { file := some c, backup := backup } = (.ok r, s1)) :
    noFilters (some f) = false ∧
      ∃ kept, deleteItems f c = .ok (kept, r.data) ∧ r.count = r.data.length ∧
        s1.file = some kept := by
  simp only [deleteOperation, readEntityFile] at h
  cases hno : noFilters (some f) with
  | true =>
    rw [hno] at h
    simp at h
  | false =>
    rw [hno] at h
    simp only [Bool.false_eq_true, if_false] at h
    cases hdel : deleteItems f c with
    | error e =>
      rw [hdel] at h
      cases h
    | ok res =>
      obtain ⟨nd, del⟩ := res
      rw [hdel] at h
      simp only [Prod.mk.injEq, Except.ok.injEq] at h
      obtain ⟨hr, hs⟩ := h
      subst hr
      subst hs
      exact ⟨rfl, nd, rfl, rfl, rfl⟩

theorem filter_not_filter_match (f : JVal) (c : List Document) :
    (c.filter (fun d => !isMatch f d)).filter (isMatch f) = [] := by
  rw [List.filter_filter, List.filter_eq_nil_iff]
  intro d _
  cases isMatch f d <;> simp

theorem length_filter_add_length_filter_not (m : Document → Bool) (c : List Document) :
    (c.filter m).length + (c.filter (fun d => !m d)).length = c.length := by
  induction c with
  | nil => rfl
  | cons d rest ih =>
    cases hm : m d <;> simp [List.filter_cons, hm] <;> omega

/-! ## Claims on DELETE -/

/-- C11: when DELETE succeeds on a stored collection `c`, the persisted collection
is the list of the documents of `c` that the filter does not match, in their
order; the returned data is the list of the documents of `c` that it matches, in
their order; count is their number, and count plus the length of the persisted
collection is the length of `c`. -/
theorem deleteOperation_partitions (c : List Document) (f : JVal) (config : Config)
    (backup : Option (List Document)) (r : OpResult) (s1 : Store)
    (h : deleteOperation (some f) config { file := some c, backup := backup } = (.ok r, s1)) :
    s1.file = some (c.filter (fun d => !isMatch f d)) ∧
      r.data = c.filter (isMatch f) ∧
      r.count = r.data.length ∧
      r.count + (c.filter (fun d => !isMatch f d)).length = c.length := by
  obtain ⟨_, kept, hdel, hcount, hfile⟩ := deleteOperation_ok_inv c f config backup r s1 h
  obtain ⟨_, hkept, hdata⟩ := deleteItems_ok f c kept r.data hdel
  refine ⟨by rw [hfile, hkept], hdata, hcount, ?_⟩
  rw [hcount, hdata]
  exact length_filter_add_length_filter_not (isMatch f) c

/-- C11 (witness): the scenario of the specification, DELETE with the filter
`{"city": "Turin"}` on the two sample documents persists the document `1` only
and returns the document `2`, count 1. -/
theorem deleteOperation_partitions_witness :
    deleteOperation (some cityTurin) defaultConfig
        { file := some sampleCollection, backup := none } =
      (.ok { data := [turinDoc], count := 1, message := "Successfully deleted 1 item(s)" },
        { file := some [romeDoc], backup := none }) ∧
      some [romeDoc] = some (sampleCollection.filter (fun d => !isMatch cityTurin d)) ∧
      [turinDoc] = sampleCollection.filter (isMatch cityTurin) ∧
      1 = [turinDoc].length ∧
      1 + (sampleCollection.filter (fun d => !isMatch cityTurin d)).length =
        sampleCollection.length :=
  ⟨rfl, deleteOperation_partitions sampleCollection cityTurin defaultConfig none
    { data := [turinDoc], count := 1, message := "Successfully deleted 1 item(s)" }
    { file := some [romeDoc], backup := none } rfl⟩

/-- C20: when DELETE with the filter `f` succeeds on a stored collection `c`, GET
with `f` on `c` succeeds and returns exactly the documents that DELETE returns,
and GET with `f` on the file system left by the DELETE succeeds and returns no
document, count 0. -/
theorem delete_get_agree (c : List Document) (f : JVal) (config configGet : Config)
    (backup : Option (List Document)) (r : OpResult) (s1 : Store)
    (h : deleteOperation (some f) config { file := some c, backup := backup } = (.ok r, s1)) :
    (∃ rg, getOperation (some f) configGet { file := some c, backup := backup } =
        (.ok rg, { file := some c, backup := backup }) ∧ rg.data = r.data ∧
        rg.count = r.count) ∧
      ∃ rg, getOperation (some f) configGet s1 = (.ok rg, s1) ∧ rg.data = [] ∧
        rg.count = 0 := by
  obtain ⟨hno, kept, hdel, hcount, hfile⟩ := deleteOperation_ok_inv c f config backup r s1 h
  obtain ⟨hall, hkept, hdata⟩ := deleteItems_ok f c kept r.data hdel
  constructor
  · refine ⟨{ data := c.filter (isMatch f), count := (c.filter (isMatch f)).length,
               message := "Retrieved " ++ Nat.repr (c.filter (isMatch f)).length
                 ++ " item(s) matching filters" }, ?_, hdata.symm, ?_⟩
    · simp only [getOperation, readEntityFile, hno, Bool.false_eq_true, if_false,
        filterMatching_ok f c hall]
    · rw [hcount, hdata]
  · have hallKept : ∀ d ∈ kept, ∃ b, matchesFilters (.obj d) f = .ok b := by
      intro d hd
      rw [hkept] at hd
      exact hall d (List.mem_filter.1 hd).1
    have hnone : kept.filter (isMatch f) = [] := by
      rw [hkept]
      exact filter_not_filter_match f c
    obtain ⟨file1, backup1⟩ := s1
    simp only at hfile
    subst hfile
    refine ⟨{ data := kept.filter (isMatch f), count := (kept.filter (isMatch f)).length,
              message := "Retrieved " ++ Nat.repr (kept.filter (isMatch f)).length
                ++ " item(s) matching filters" }, ?_, hnone, ?_⟩
    · simp only [getOperation, readEntityFile, hno, Bool.false_eq_true, if_false,
        filterMatching_ok f kept hallKept]
    · simp only [hnone]
      rfl

/-- C20 (witness): after the DELETE of the documents of Turin from the two sample
documents, GET with the same filter returns no document. -/
theorem delete_get_agree_witness :
    (∃ rg, getOperation (some cityTurin) defaultConfig
        { file := some sampleCollection, backup := none } =
        (.ok rg, { file := some sampleCollection, backup := none }) ∧
        rg.data = [turinDoc] ∧ rg.count = 1) ∧
      ∃ rg, getOperation (some cityTurin) defaultConfig
          { file := some [romeDoc], backup := none } =
        (.ok rg, { file := some [romeDoc], backup := none }) ∧ rg.data = [] ∧
        rg.count = 0 :=
  delete_get_agree sampleCollection cityTurin defaultConfig defaultConfig none
    { data := [turinDoc], count := 1, message := "Successfully deleted 1 item(s)" }
    { file := some [romeDoc], backup := none } rfl

/-! ## Unknown operators: lemmas -/

theorem operatorHolds_unknown (v : Option JVal) (op : String) (compareValue : JVal)
    (h : isKnownOperator op = false) :
    operatorHolds v op compareValue = .error (.error ("Unknown operator: " ++ op)) := by
  simp only [isKnownOperator, Bool.or_eq_false_iff, beq_eq_false_iff_ne, ne_eq] at h
  obtain ⟨⟨⟨⟨⟨⟨⟨⟨⟨⟨⟨h1, h2⟩, h3⟩, h4⟩, h5⟩, h6⟩, h7⟩, h8⟩, h9⟩, h10⟩, h11⟩, h12⟩ := h
  unfold operatorHolds
  rw [if_neg h1, if_neg h2, if_neg h3, if_neg h4, if_neg h5, if_neg h6, if_neg h7, if_neg h8,
    if_neg h9, if_neg h10, if_neg h11, if_neg h12]

theorem matchesOperators_reach (v : Option JVal) (op : String) (compareValue : JVal)
    (opsPost : List (String × JVal)) (e : JsError)
    (hop : operatorHolds v op compareValue = .error e) (opsPre : List (String × JVal))
    (hpre : ∀ oc ∈ opsPre, operatorTrue v oc = true) :
    matchesOperators v (opsPre ++ (op, compareValue) :: opsPost) = .error e := by
  induction opsPre with
  | nil => simp [matchesOperators, hop]
  | cons oc rest ih =>
    obtain ⟨o, cv⟩ := oc
    have hhead := (operatorTrue_iff v (o, cv)).1 (hpre (o, cv) (List.mem_cons_self _ _))
    simp only at hhead
    rw [List.cons_append, matchesOperators, hhead]
    exact ih (fun x hx => hpre x (List.mem_cons_of_mem _ hx))

theorem matchesEntries_reach (item : JVal) (key : String) (value : JVal)
    (post : List (String × JVal)) (e : JsError) (hkey : isCombinator key = false)
    (hfield : fieldMatches item key value = .error e) (pre : List (String × JVal))
    (hpre : ∀ p ∈ pre, isCombinator p.1 = false ∧
      constraintHolds (getNestedValue item p.1) p.2 = true) :
    matchesEntries item (pre ++ (key, value) :: post) = .error e := by
  induction pre with
  | nil =>
    rw [List.nil_append, matchesEntries_field item key value post hkey, hfield]
  | cons p rest ih =>
    obtain ⟨k, v⟩ := p
    obtain ⟨hk, hv⟩ := hpre (k, v) (List.mem_cons_self _ _)
    have hhead := (fieldMatches_true_iff item k v).2 hv
    rw [List.cons_append, matchesEntries_field item k v _ hk, hhead]
    exact ih (fun x hx => hpre x (List.mem_cons_of_mem _ hx))

theorem matchesFilters_reach (d : Document) (f : JVal) (op : String)
    (hreach : ReachesOperator d f op) (hop : isKnownOperator op = false) :
    matchesFilters (.obj d) f = .error (.error ("Unknown operator: " ++ op)) ∧
      noFilters (some f) = false := by
  obtain ⟨pre, key, opsPre, cv, opsPost, post, rfl, hpre, hkey, hops⟩ := hreach
  constructor
  · rw [matchesFilters_obj]
    apply matchesEntries_reach (.obj d) key _ post _ hkey _ pre hpre
    show matchesOperators (getNestedValue (.obj d) key) (opsPre ++ (op, cv) :: opsPost) = _
    exact matchesOperators_reach _ op cv opsPost _ (operatorHolds_unknown _ op cv hop) opsPre hops
  · cases hno : noFilters (some (JVal.obj (pre ++ (key, JVal.obj (opsPre ++ (op, cv) :: opsPost))
        :: post))) with
    | false => rfl
    | true =>
      have := (noFilters_iff _).1 hno
      simp [ownEntries] at this

theorem filterMatching_first_error (f : JVal) (d : Document) (rest : List Document)
    (e : JsError) (hd : matchesFilters (.obj d) f = .error e) (before : List Document)
    (hbefore : ∀ x ∈ before, ∃ b, matchesFilters (.obj x) f = .ok b) :
    filterMatching f (before ++ d :: rest) = .error e := by
  induction before with
  | nil => simp [filterMatching, hd]
  | cons x xs ih =>
    obtain ⟨b, hb⟩ := hbefore x (List.mem_cons_self _ _)
    rw [List.cons_append, filterMatching, hb, ih (fun y hy => hbefore y (List.mem_cons_of_mem _ hy))]

theorem updateItems_first_error (data : Document) (f : JVal) (d : Document)
    (rest : List Document) (e : JsError) (hd : matchesFilters (.obj d) f = .error e)
    (before : List Document)
    (hbefore : ∀ x ∈ before, ∃ b, matchesFilters (.obj x) f = .ok b) :
    updateItems data f (before ++ d :: rest) = .error e := by
  induction before with
  | nil => simp [updateItems, hd]
  | cons x xs ih =>
    obtain ⟨b, hb⟩ := hbefore x (List.mem_cons_self _ _)
    rw [List.cons_append, updateItems, hb, ih (fun y hy => hbefore y (List.mem_cons_of_mem _ hy))]

theorem deleteItems_first_error (f : JVal) (d : Document) (rest : List Document)
    (e : JsError) (hd : matchesFilters (.obj d) f = .error e) (before : List Document)
    (hbefore : ∀ x ∈ before, ∃ b, matchesFilters (.obj x) f = .ok b) :
    deleteItems f (before ++ d :: rest) = .error e := by
  induction before with
  | nil => simp [deleteItems, hd]
  | cons x xs ih =>
    obtain ⟨b, hb⟩ := hbefore x (List.mem_cons_self _ _)
    rw [List.cons_append, deleteItems, hb, ih (fun y hy => hbefore y (List.mem_cons_of_mem _ hy))]

/-! ## Claim on unknown operators -/

/-- C12 (counterexample): GET with the filter `{"age": {"$weird": 1}}` on the empty
collection, and GET with the filter `{"age": {"$gt": 100, "$weird": 1}}` on the
two sample documents, do not fail: the unrecognised operator is never
evaluated, and both return no document. -/
theorem getOperation_unknown_operator_unreached :
    isKnownOperator "$weird" = false ∧
      getOperation (some weirdFilter) defaultConfig { file := some [], backup := none } =
        (.ok { data := [], count := 0, message := "Retrieved 0 item(s) matching filters" },
          { file := some [], backup := none }) ∧
      getOperation (some weirdAfterGt) defaultConfig
          { file := some sampleCollection, backup := none } =
        (.ok { data := [], count := 0, message := "Retrieved 0 item(s) matching filters" },
          { file := some sampleCollection, backup := none }) :=
  ⟨rfl, rfl, rfl⟩

/-- C12 (amended): when the stored collection holds a document on which the
evaluation of the filter reaches an operator that is not recognised, and the
evaluation fails on no document before it, GET, UPDATE and DELETE fail with the
message `Unknown operator: ` followed by the name of the operator, and the file
system is left as it was. -/
theorem unknown_operator_fails (before : List Document) (d : Document)
    (rest : List Document) (f : JVal) (op : String) (data : Document) (config : Config)
    (backup : Option (List Document))
    (hbefore : ∀ x ∈ before, ∃ b, matchesFilters (.obj x) f = .ok b)
    (hreach : ReachesOperator d f op) (hop : isKnownOperator op = false) :
    getOperation (some f) config { file := some (before ++ d :: rest), backup := backup } =
        (.error (.error ("Unknown operator: " ++ op)),
          { file := some (before ++ d :: rest), backup := backup }) ∧
      updateOperation (some data) (some f) config
          { file := some (before ++ d :: rest), backup := backup } =
        (.error (.error ("Unknown operator: " ++ op)),
          { file := some (before ++ d :: rest), backup := backup }) ∧
      deleteOperation (some f) config { file := some (before ++ d :: rest), backup := backup } =
        (.error (.error ("Unknown operator: " ++ op)),
          { file := some (before ++ d :: rest), backup := backup }) := by
  obtain ⟨herr, hno⟩ := matchesFilters_reach d f op hreach hop
  refine ⟨?_, ?_, ?_⟩
  · simp only [getOperation, readEntityFile, hno, Bool.false_eq_true, if_false,
      filterMatching_first_error f d rest _ herr before hbefore]
  · simp only [updateOperation, readEntityFile, hno, Bool.false_eq_true, if_false,
      updateItems_first_error data f d rest _ herr before hbefore]
  · simp only [deleteOperation, readEntityFile, hno, Bool.false_eq_true, if_false,
      deleteItems_first_error f d rest _ herr before hbefore]

/-- C12 (witness): with the filter `{"city": "Rome", "age": {"$gte": 25, "$weird":
1}}` the evaluation reaches `$weird` on the document `1`, and the three
operations fail on the two sample documents. -/
theorem unknown_operator_fails_witness :
    ReachesOperator romeDoc weirdAfterRome "$weird" ∧
      getOperation (some weirdAfterRome) defaultConfig
          { file := some ([] ++ romeDoc :: [turinDoc]), backup := none } =
        (.error (.error ("Unknown operator: " ++ "$weird")),
          { file := some ([] ++ romeDoc :: [turinDoc]), backup := none }) ∧
      updateOperation (some ageData) (some weirdAfterRome) defaultConfig
          { file := some ([] ++ romeDoc :: [turinDoc]), backup := none } =
        (.error (.error ("Unknown operator: " ++ "$weird")),
          { file := some ([] ++ romeDoc :: [turinDoc]), backup := none }) ∧
      deleteOperation (some weirdAfterRome) defaultConfig
          { file := some ([] ++ romeDoc :: [turinDoc]), backup := none } =
        (.error (.error ("Unknown operator: " ++ "$weird")),
          { file := some ([] ++ romeDoc :: [turinDoc]), backup := none }) :=
  have hreach : ReachesOperator romeDoc weirdAfterRome "$weird" :=
    ⟨[("city", .str "Rome")], "age", [("$gte", .num 25)], .num 1, [], [], rfl,
      by
        intro p hp
        simp only [List.mem_singleton] at hp
        subst hp
        exact ⟨rfl, rfl⟩,
      rfl,
      by
        intro oc hoc
        simp only [List.mem_singleton] at hoc
        subst hoc
        rfl⟩
  ⟨hreach, unknown_operator_fails [] romeDoc [turinDoc] weirdAfterRome "$weird" ageData
    defaultConfig none (by simp) hreach rfl⟩

/-! ## Uniqueness of `_id`: lemmas -/

theorem uniqueIds_of_ids_eq (c p : List Document)
    (h : p.map (List.lookup "_id") = c.map (List.lookup "_id")) (hc : UniqueIds c) :
    UniqueIds p := by
  have hc2 : (c.map (List.lookup "_id")).Pairwise (fun x y => strictEquals x y = false) :=
    List.pairwise_map.2 hc
  rw [← h] at hc2
  exact List.pairwise_map.1 hc2

/-! ## Claim on the uniqueness of `_id` -/

/-- C14 (counterexample): the batch made of the document `{_id: "2", ...}` twice is
added with success to a collection whose `_id` values are pairwise distinct, and
the persisted collection holds two documents with the `_id` "2". -/
theorem addOperation_batch_duplicates :
    UniqueIds [romeDoc] ∧
      addOperation (some (.many [turinDoc, turinDoc])) defaultConfig sampleUuid
          { file := some [romeDoc], backup := none } =
        (.ok { data := [turinDoc, turinDoc], count := 2,
               message := "Successfully added 2 item(s)" },
          { file := some [romeDoc, turinDoc, turinDoc], backup := none }) ∧
      ¬ UniqueIds [romeDoc, turinDoc, turinDoc] := by
  refine ⟨List.pairwise_singleton _ _, rfl, ?_⟩
  intro h
  have h2 := (List.pairwise_cons.1 (List.pairwise_cons.1 h).2).1 turinDoc
    (List.mem_singleton.2 rfl)
  have h3 : strictEquals (List.lookup "_id" turinDoc) (List.lookup "_id" turinDoc) = true := rfl
  rw [h3] at h2
  cases h2

/-- C14 (amended): on a collection whose `_id` values are pairwise distinct, a
successful UPDATE and a successful DELETE persist a collection whose `_id`
values are pairwise distinct, and so does a successful ADD provided the
documents it appends have pairwise distinct `_id` values (ADD compares the new
`_id` values with those of the stored documents only, not with each other). -/
theorem unique_ids_preserved (c : List Document) (config : Config)
    (backup : Option (List Document)) (r : OpResult) (s1 : Store) (hc : UniqueIds c) :
    (∀ data uuid,
        addOperation (some data) config uuid { file := some c, backup := backup } = (.ok r, s1) →
        UniqueIds r.data → ∃ p, s1.file = some p ∧ UniqueIds p) ∧
      (∀ data f,
        updateOperation (some data) (some f) config { file := some c, backup := backup } =
          (.ok r, s1) → ∃ p, s1.file = some p ∧ UniqueIds p) ∧
      (∀ f,
        deleteOperation (some f) config { file := some c, backup := backup } = (.ok r, s1) →
        ∃ p, s1.file = some p ∧ UniqueIds p) := by
  refine ⟨?_, ?_, ?_⟩
  · intro data uuid h hnew
    obtain ⟨hadd, _, hfile⟩ := addOperation_ok_inv c data config uuid backup r s1 h
    refine ⟨c ++ r.data, hfile, ?_⟩
    exact List.pairwise_append.2
      ⟨hc, hnew, (addItems_ok c uuid data.refs data.objects 0 r.data hadd).2⟩
  · intro data f h
    obtain ⟨newData, hup, _, hfile⟩ := updateOperation_ok_inv c data f config backup r s1 h
    obtain ⟨hnd, _⟩ := updateItems_ok data f c newData r.data hup
    refine ⟨newData, hfile, uniqueIds_of_ids_eq c newData ?_ hc⟩
    rw [hnd, List.map_map]
    apply List.map_congr_left
    intro item _
    show List.lookup "_id" (if isMatch f item then updatedItem item data else item) = _
    cases isMatch f item
    · rfl
    · exact lookup_id_updatedItem item data
  · intro f h
    obtain ⟨_, kept, hdel, _, hfile⟩ := deleteOperation_ok_inv c f config backup r s1 h
    obtain ⟨_, hkept, _⟩ := deleteItems_ok f c kept r.data hdel
    refine ⟨kept, hfile, ?_⟩
    rw [hkept]
    exact List.Pairwise.sublist (List.filter_sublist c) hc

/-- C14 (witness): on the two sample documents, whose `_id` values are distinct,
the UPDATE of the documents of Turin persists a collection whose `_id` values
are distinct, and so does the ADD of the document `{name: "Ann"}`. -/
theorem unique_ids_preserved_witness :
    UniqueIds sampleCollection ∧
      (∃ p, (updateOperation (some ageData) (some cityTurin) defaultConfig
          { file := some sampleCollection, backup := none }).2.file = some p ∧ UniqueIds p) ∧
      UniqueIds [[("name", JVal.str "Ann"), ("_id", JVal.str "f")]] ∧
      (∃ p, (addOperation (some (.single annDoc)) defaultConfig countingUuid
          { file := some sampleCollection, backup := none }).2.file = some p ∧ UniqueIds p) :=
  have hc : UniqueIds sampleCollection := by
    unfold UniqueIds sampleCollection
    rw [List.pairwise_cons]
    refine ⟨?_, List.pairwise_singleton _ _⟩
    intro b hb
    rw [List.mem_singleton.1 hb]
    rfl
  have hnew : UniqueIds [[("name", JVal.str "Ann"), ("_id", JVal.str "f")]] :=
    List.pairwise_singleton _ _
  ⟨hc, (unique_ids_preserved sampleCollection defaultConfig none
    { data := [[("_id", .str "2"), ("age", .num 21), ("city", .str "Turin")]], count := 1,
      message := "Successfully updated 1 item(s)" }
    { file := some [romeDoc, [("_id", .str "2"), ("age", .num 21), ("city", .str "Turin")]],
      backup := none } hc).2.1 ageData cityTurin rfl, hnew,
    (unique_ids_preserved sampleCollection defaultConfig none
      { data := [[("name", .str "Ann"), ("_id", .str "f")]], count := 1,
        message := "Successfully added 1 item(s)" }
      { file := some (sampleCollection ++ [[("name", .str "Ann"), ("_id", .str "f")]]),
        backup := none } hc).1 (.single annDoc) countingUuid rfl hnew⟩

/-! ## Comparison operators: lemmas -/

theorem matchesFilters_operatorFilter (item : JVal) (path operator : String)
    (compareValue : JVal) (hpath : isCombinator path = false) :
    matchesFilters item (operatorFilter path operator compareValue) =
      match operatorHolds (getNestedValue item path) operator compareValue with
      | .ok true => .ok true
      | .ok false => .ok false
      | .error e => .error e := by
  unfold operatorFilter
  rw [matchesFilters_obj, matchesEntries_field item path _ [] hpath]
  show (match matchesOperators (getNestedValue item path) [(operator, compareValue)] with
    | .ok true => matchesEntries item []
    | .ok false => .ok false
    | .error e => .error e) = _
  rw [matchesOperators]
  cases h : operatorHolds (getNestedValue item path) operator compareValue with
  | error e => rfl
  | ok b => cases b <;> rfl

theorem matchesFilters_operatorFilter_true (item : JVal) (path operator : String)
    (compareValue : JVal) (hpath : isCombinator path = false) :
    matchesFilters item (operatorFilter path operator compareValue) = .ok true ↔
      operatorHolds (getNestedValue item path) operator compareValue = .ok true := by
  rw [matchesFilters_operatorFilter item path operator compareValue hpath]
  cases h : operatorHolds (getNestedValue item path) operator compareValue with
  | error e => simp
  | ok b => cases b <;> simp

theorem decimalLt_int (n m : Int) : decimalLt n 0 m 0 = decide (n < m) := by
  simp [decimalLt]

theorem isLessThan_num_left (n : Int) (v : JVal) (m e : Int)
    (hprim : toPrimitive (some v) = .ok (some v)) (hnum : toNumber (some v) = .fin m e) :
    isLessThan (some (.num n)) (some v) = .ok (some (decimalLt n 0 m e)) := by
  cases v with
  | arr items =>
    simp only [toPrimitive] at hprim
    cases hs : toStringJS (.arr items) <;> rw [hs] at hprim <;> cases hprim
  | obj fields =>
    simp only [toPrimitive] at hprim
    cases hs : toStringJS (.obj fields) <;> rw [hs] at hprim <;> cases hprim
  | null =>
    simp only [isLessThan, toPrimitive]
    rw [hnum]
    rfl
  | bool b =>
    simp only [isLessThan, toPrimitive]
    rw [hnum]
    rfl
  | num k =>
    simp only [isLessThan, toPrimitive]
    rw [hnum]
    rfl
  | str s =>
    simp only [isLessThan, toPrimitive]
    rw [hnum]
    rfl

theorem isLessThan_num_right (n : Int) (v : JVal) (m e : Int)
    (hprim : toPrimitive (some v) = .ok (some v)) (hnum : toNumber (some v) = .fin m e) :
    isLessThan (some v) (some (.num n)) = .ok (some (decimalLt m e n 0)) := by
  cases v with
  | arr items =>
    simp only [toPrimitive] at hprim
    cases hs : toStringJS (.arr items) <;> rw [hs] at hprim <;> cases hprim
  | obj fields =>
    simp only [toPrimitive] at hprim
    cases hs : toStringJS (.obj fields) <;> rw [hs] at hprim <;> cases hprim
  | null =>
    simp only [isLessThan, toPrimitive]
    rw [hnum]
    rfl
  | bool b =>
    simp only [isLessThan, toPrimitive]
    rw [hnum]
    rfl
  | num k =>
    simp only [isLessThan, toPrimitive]
    rw [hnum]
    rfl
  | str s =>
    simp only [isLessThan, toPrimitive]
    rw [hnum]
    rfl

theorem ordered_operators_finite (n : Int) (v : JVal) (m e : Int)
    (hprim : toPrimitive (some v) = .ok (some v)) (hnum : toNumber (some v) = .fin m e) :
    (operatorHolds (some v) "$gt" (.num n) = .ok true ↔ decimalLt n 0 m e = true) ∧
      (operatorHolds (some v) "$gte" (.num n) = .ok true ↔ decimalLt m e n 0 = false) ∧
      (operatorHolds (some v) "$lt" (.num n) = .ok true ↔ decimalLt m e n 0 = true) ∧
      (operatorHolds (some v) "$lte" (.num n) = .ok true ↔ decimalLt n 0 m e = false) := by
  have hl := isLessThan_num_left n v m e hprim hnum
  have hr := isLessThan_num_right n v m e hprim hnum
  refine ⟨?_, ?_, ?_, ?_⟩
  · have h : operatorHolds (some v) "$gt" (.num n) =
        match jsLe (some v) (some (.num n)) with
        | .ok b => .ok (!b)
        | .error e => .error e := rfl
    rw [h, jsLe, hl]
    cases decimalLt n 0 m e <;> simp
  · have h : operatorHolds (some v) "$gte" (.num n) =
        match jsLt (some v) (some (.num n)) with
        | .ok b => .ok (!b)
        | .error e => .error e := rfl
    rw [h, jsLt, hr]
    cases decimalLt m e n 0 <;> simp
  · have h : operatorHolds (some v) "$lt" (.num n) =
        match jsGe (some v) (some (.num n)) with
        | .ok b => .ok (!b)
        | .error e => .error e := rfl
    rw [h, jsGe, hr]
    cases decimalLt m e n 0 <;> simp
  · have h : operatorHolds (some v) "$lte" (.num n) =
        match jsGt (some v) (some (.num n)) with
        | .ok b => .ok (!b)
        | .error e => .error e := rfl
    rw [h, jsGt, hl]
    cases decimalLt n 0 m e <;> simp

theorem ordered_operators_absent (n : Int) :
    operatorHolds none "$gt" (.num n) = .ok true ∧
      operatorHolds none "$gte" (.num n) = .ok true ∧
      operatorHolds none "$lt" (.num n) = .ok true ∧
      operatorHolds none "$lte" (.num n) = .ok true :=
  ⟨rfl, rfl, rfl, rfl⟩

theorem ordered_operators_numbers (item : JVal) (path : String) (n m : Int)
    (hpath : isCombinator path = false) (hv : getNestedValue item path = some (.num m)) :
    (matchesFilters item (operatorFilter path "$gt" (.num n)) = .ok true ↔ n < m) ∧
      (matchesFilters item (operatorFilter path "$gte" (.num n)) = .ok true ↔ n ≤ m) ∧
      (matchesFilters item (operatorFilter path "$lt" (.num n)) = .ok true ↔ m < n) ∧
      (matchesFilters item (operatorFilter path "$lte" (.num n)) = .ok true ↔ m ≤ n) := by
  obtain ⟨h1, h2, h3, h4⟩ := ordered_operators_finite n (.num m) m 0 rfl rfl
  simp only [matchesFilters_operatorFilter_true item path _ _ hpath, hv, h1, h2, h3, h4,
    decimalLt_int]
  refine ⟨by simp, by simp, by simp, by simp⟩

/-! ## Claims on the operators -/

/-- C15 (evaluation at the failing inputs): the document `1` has no field `name`,
and it matches the four constraints `{"name": {"$gt": 25}}`, `$gte`, `$lt` and
`$lte`; so does, on `age`, the document `{_id: "4", age: "abc"}`, whose `age` is
a string that denotes no number; and the document `{_id: "3", age: "30"}`,
whose `age` is a string and not a number, matches `{"age": {"$gt": 25}}`. -/
theorem ordered_operators_match_non_numbers :
    getNestedValue (.obj romeDoc) "name" = none ∧
      matchesFilters (.obj romeDoc) (operatorFilter "name" "$gt" (.num 25)) = .ok true ∧
      matchesFilters (.obj romeDoc) (operatorFilter "name" "$gte" (.num 25)) = .ok true ∧
      matchesFilters (.obj romeDoc) (operatorFilter "name" "$lt" (.num 25)) = .ok true ∧
      matchesFilters (.obj romeDoc) (operatorFilter "name" "$lte" (.num 25)) = .ok true ∧
      getNestedValue (.obj wordAgeDoc) "age" = some (.str "abc") ∧
      matchesFilters (.obj wordAgeDoc) (operatorFilter "age" "$gt" (.num 25)) = .ok true ∧
      matchesFilters (.obj wordAgeDoc) (operatorFilter "age" "$gte" (.num 25)) = .ok true ∧
      matchesFilters (.obj wordAgeDoc) (operatorFilter "age" "$lt" (.num 25)) = .ok true ∧
      matchesFilters (.obj wordAgeDoc) (operatorFilter "age" "$lte" (.num 25)) = .ok true ∧
      getNestedValue (.obj stringAgeDoc) "age" = some (.str "30") ∧
      matchesFilters (.obj stringAgeDoc) (operatorFilter "age" "$gt" (.num 25)) = .ok true :=
  ⟨rfl, rfl, rfl, rfl, rfl, rfl, rfl, rfl, rfl, rfl, rfl, rfl⟩

/-- C16 (counterexample): with the compare value 5, which is not a sequence, neither
`{"$in": 5}` nor `{"$nin": 5}` holds on the value 5: `$nin` is not the negation
of `$in` there. -/
theorem nin_not_negation_without_sequence :
    matchesOperators (some (.num 5)) [("$in", .num 5)] = .ok false ∧
      matchesOperators (some (.num 5)) [("$nin", .num 5)] = .ok false ∧
      ¬ (matchesOperators (some (.num 5)) [("$nin", .num 5)] = .ok true ↔
          ¬ matchesOperators (some (.num 5)) [("$in", .num 5)] = .ok true) := by
  have hin : matchesOperators (some (.num 5)) [("$in", .num 5)] = .ok false := rfl
  have hnin : matchesOperators (some (.num 5)) [("$nin", .num 5)] = .ok false := rfl
  refine ⟨hin, hnin, fun h => ?_⟩
  have h2 := h.2 (by rw [hin]; simp)
  rw [hnin] at h2
  cases h2

/-- C16 (amended): `{"$in": c}` holds on a value iff `c` is a sequence and the value
is strictly equal to one of its elements; when `c` is a sequence, `{"$nin": c}`
holds iff `{"$in": c}` does not; when `c` is not a sequence, neither holds. -/
theorem in_nin_spec (v : Option JVal) :
    (∀ c, matchesOperators v [("$in", c)] = .ok true ↔
        ∃ items, c = .arr items ∧ ∃ x ∈ items, strictEquals (some x) v = true) ∧
      (∀ items, matchesOperators v [("$nin", .arr items)] = .ok true ↔
        ¬ matchesOperators v [("$in", .arr items)] = .ok true) ∧
      (∀ c, (∀ items, c ≠ .arr items) →
        matchesOperators v [("$in", c)] = .ok false ∧
        matchesOperators v [("$nin", c)] = .ok false) := by
  have hin : ∀ items, matchesOperators v [("$in", .arr items)] =
      .ok (items.any (fun x => strictEquals (some x) v)) := by
    intro items
    have h : operatorHolds v "$in" (.arr items) =
        .ok (items.any (fun x => strictEquals (some x) v)) := rfl
    rw [matchesOperators, h]
    cases items.any (fun x => strictEquals (some x) v) <;> rfl
  have hnin : ∀ items, matchesOperators v [("$nin", .arr items)] =
      .ok (!items.any (fun x => strictEquals (some x) v)) := by
    intro items
    have h : operatorHolds v "$nin" (.arr items) =
        .ok (!items.any (fun x => strictEquals (some x) v)) := rfl
    rw [matchesOperators, h]
    cases items.any (fun x => strictEquals (some x) v) <;> rfl
  have hnot : ∀ c, (∀ items, c ≠ .arr items) →
      matchesOperators v [("$in", c)] = .ok false ∧
      matchesOperators v [("$nin", c)] = .ok false := by
    intro c hc
    cases c with
    | arr items => exact absurd rfl (hc items)
    | null => exact ⟨rfl, rfl⟩
    | bool b => exact ⟨rfl, rfl⟩
    | num n => exact ⟨rfl, rfl⟩
    | str s => exact ⟨rfl, rfl⟩
    | obj fields => exact ⟨rfl, rfl⟩
  refine ⟨?_, ?_, hnot⟩
  · intro c
    by_cases hc : ∃ items, c = .arr items
    · obtain ⟨items, rfl⟩ := hc
      rw [hin]
      simp
    · have hc2 : ∀ items, c ≠ .arr items := fun items h => hc ⟨items, h⟩
      constructor
      · intro h
        rw [(hnot c hc2).1] at h
        cases h
      · rintro ⟨items, h, _⟩
        exact absurd h (hc2 items)
  · intro items
    rw [hin, hnin]
    cases items.any (fun x => strictEquals (some x) v) <;> simp

/-- C16 (witness): the compare value `"Rome"` is not a sequence, and neither `$in`
nor `$nin` holds with it on the value `"Rome"`. -/
theorem in_nin_spec_witness :
    (∀ items, JVal.str "Rome" ≠ .arr items) ∧
      matchesOperators (some (.str "Rome")) [("$in", .str "Rome")] = .ok false ∧
      matchesOperators (some (.str "Rome")) [("$nin", .str "Rome")] = .ok false :=
  have hc : ∀ items, JVal.str "Rome" ≠ .arr items := fun _ h => by cases h
  ⟨hc, (in_nin_spec (some (.str "Rome"))).2.2 (.str "Rome") hc⟩

/-! ## Combinators among other keys -/

theorem matchesEntries_combinator (item : JVal) (key : String) (value : JVal)
    (post : List (String × JVal)) (hkey : isCombinator key = true) :
    matchesEntries item ((key, value) :: post) = matchesEntries item [(key, value)] := by
  have hunfold : ∀ rest, matchesEntries item ((key, value) :: rest) =
      if key = "$and" then
        match value with
        | .arr subFilters => everyMatches item subFilters
        | _ => .error (.typeError "value.every is not a function")
      else if key = "$or" then
        match value with
        | .arr subFilters => someMatches item subFilters
        | _ => .error (.typeError "value.some is not a function")
      else if key = "$not" then
        match matchesFilters item value with
        | .ok b => .ok (!b)
        | .error e => .error e
      else
        match fieldMatches item key value with
        | .ok true => matchesEntries item rest
        | .ok false => .ok false
        | .error e => .error e := by
    intro rest
    cases value <;> rfl
  simp only [isCombinator, Bool.or_eq_true, beq_iff_eq] at hkey
  rw [hunfold post, hunfold []]
  rcases hkey with (h | h) | h <;> subst h <;> simp

theorem matchesEntries_before_combinator (item : JVal) (key : String) (value : JVal)
    (post : List (String × JVal)) (hkey : isCombinator key = true)
    (pre : List (String × JVal)) (hpre : ∀ p ∈ pre, isCombinator p.1 = false) :
    matchesEntries item (pre ++ (key, value) :: post) = .ok true ↔
      (∀ p ∈ pre, constraintHolds (getNestedValue item p.1) p.2 = true) ∧
        matchesEntries item [(key, value)] = .ok true := by
  induction pre with
  | nil =>
    rw [List.nil_append, matchesEntries_combinator item key value post hkey]
    simp
  | cons p rest ih =>
    obtain ⟨k, v⟩ := p
    have hk := hpre (k, v) (List.mem_cons_self _ _)
    have hrest := ih (fun q hq => hpre q (List.mem_cons_of_mem _ hq))
    rw [List.cons_append, matchesEntries_field item k v _ hk]
    cases h : fieldMatches item k v with
    | error e =>
      have hfalse : ¬ constraintHolds (getNestedValue item k) v = true := by
        rw [← fieldMatches_true_iff, h]
        simp
      simp [hfalse]
    | ok b =>
      cases b with
      | false =>
        have hfalse : ¬ constraintHolds (getNestedValue item k) v = true := by
          rw [← fieldMatches_true_iff, h]
          simp
        simp [hfalse]
      | true =>
        have htrue : constraintHolds (getNestedValue item k) v = true := by
          rw [← fieldMatches_true_iff, h]
        simp only [hrest, List.mem_cons, forall_eq_or_imp, htrue, true_and]

/-- C17 (counterexample): the filter `{"age": 99, "$and": []}` does not match the
document `1`, although every sub-filter of its `$and` matches: the field key
before `$and` decides. And the filter `{"$or": [], "$and": []}` does not match
either: the key `$or`, which comes first, decides. -/
theorem sibling_keys_change_and :
    matchesFilters (.obj romeDoc) ageThenAnd = .ok false ∧
      matchesFilters (.obj romeDoc) orThenAnd = .ok false ∧
      ¬ (matchesFilters (.obj romeDoc) ageThenAnd = .ok true ↔
          ∀ f ∈ ([] : List JVal), matchesFilters (.obj romeDoc) f = .ok true) := by
  have h : matchesFilters (.obj romeDoc) ageThenAnd = .ok false := rfl
  refine ⟨h, rfl, fun hiff => ?_⟩
  have h2 := hiff.2 (by simp)
  rw [h] at h2
  cases h2

/-- C17 (amended): `matchesFilters` goes through the keys of a filter object in
their order. When `$and` is the first key, the filter is true iff every
sub-filter of `$and` matches, whatever keys follow. In general, when the keys
before the first combinator key are field paths, the filter is true iff the
constraints of these fields hold and the first combinator (`$and`, `$or` or
`$not`, whichever comes first) is true by itself; the keys after it are
ignored. -/
theorem first_combinator_decides (item : JVal) :
    (∀ fs rest, matchesFilters item (.obj (("$and", .arr fs) :: rest)) = .ok true ↔
        ∀ f ∈ fs, matchesFilters item f = .ok true) ∧
      (∀ pre key value post, (∀ p ∈ pre, isCombinator p.1 = false) →
        isCombinator key = true →
        (matchesFilters item (.obj (pre ++ (key, value) :: post)) = .ok true ↔
          (∀ p ∈ pre, constraintHolds (getNestedValue item p.1) p.2 = true) ∧
            matchesFilters item (.obj [(key, value)]) = .ok true)) := by
  constructor
  · intro fs rest
    rw [matchesFilters_obj, matchesEntries_and, everyMatches_true_iff]
  · intro pre key value post hpre hkey
    rw [matchesFilters_obj, matchesFilters_obj]
    exact matchesEntries_before_combinator item key value post hkey pre hpre

/-- C17 (witness): in the filter `{"age": 99, "$and": []}` the key before `$and` is a
field path, and the filter is true iff the constraint `age = 99` holds and
`{"$and": []}` is true. -/
theorem first_combinator_decides_witness :
    (∀ p ∈ [("age", JVal.num 99)], isCombinator p.1 = false) ∧
      isCombinator "$and" = true ∧
      (matchesFilters (.obj romeDoc) (.obj ([("age", .num 99)] ++ ("$and", .arr []) :: [])) =
          .ok true ↔
        (∀ p ∈ [("age", JVal.num 99)],
            constraintHolds (getNestedValue (.obj romeDoc) p.1) p.2 = true) ∧
          matchesFilters (.obj romeDoc) (.obj [("$and", .arr [])]) = .ok true) :=
  ⟨by decide, rfl, (first_combinator_decides (.obj romeDoc)).2 [("age", .num 99)] "$and"
    (.arr []) [] (by decide) rfl⟩

/-- C18: for a field path `p` and a boolean `b`, the filter `{p: {"$exists": b}}` is
true iff (the value resolved at `p` is present) equals `b`; a document without
the field `name` matches `{"name": {"$exists": false}}` and does not match
`{"name": {"$exists": true}}`. -/
theorem exists_operator_spec (item : JVal) (path : String) (b : Bool)
    (hpath : isCombinator path = false) :
    (matchesFilters item (operatorFilter path "$exists" (.bool b)) = .ok true ↔
        (getNestedValue item path).isSome = b) ∧
      (∀ d : Document, d.lookup "name" = none →
        matchesFilters (.obj d) (operatorFilter "name" "$exists" (.bool false)) = .ok true ∧
        matchesFilters (.obj d) (operatorFilter "name" "$exists" (.bool true)) = .ok false) := by
  have hop : ∀ v : Option JVal, ∀ c : Bool,
      operatorHolds v "$exists" (.bool c) = .ok (v.isSome == c) := by
    intro v c
    rfl
  constructor
  · rw [matchesFilters_operatorFilter_true item path _ _ hpath, hop]
    simp
  · intro d hd
    have hv : getNestedValue (.obj d) "name" = none := hd
    constructor
    · rw [matchesFilters_operatorFilter (.obj d) "name" _ _ rfl, hop, hv]
      rfl
    · rw [matchesFilters_operatorFilter (.obj d) "name" _ _ rfl, hop, hv]
      rfl

/-- C18 (witness): the document `1` has no field `name` and matches `{"name":
{"$exists": false}}`. -/
theorem exists_operator_spec_witness :
    isCombinator "name" = false ∧ List.lookup "name" romeDoc = none ∧
      matchesFilters (.obj romeDoc) (operatorFilter "name" "$exists" (.bool false)) = .ok true ∧
      matchesFilters (.obj romeDoc) (operatorFilter "name" "$exists" (.bool true)) = .ok false :=
  ⟨rfl, rfl, (exists_operator_spec (.obj romeDoc) "name" false rfl).2 romeDoc rfl⟩

/-! ## Request dispatch: claims -/

theorem jsonRepository_completes (req : Request) (uuid : Nat → String) (s : Store)
    (hop : req.operation = none ∨ req.operation = some .null ∨
      ∃ operation, req.operation = some (.str operation)) :
    ∃ response s1, jsonRepository (some req) uuid s = (.ok response, s1) ∧
      ∀ e, (tryBlock (some req) uuid s).1 = .error e →
        response.success = false ∧ response.data = none ∧ response.count = 0 ∧
          response.message = e.message := by
  have hfail : ∃ op, failureOperation req.operation = .ok op := by
    rcases hop with h | h | ⟨o, h⟩ <;> rw [h] <;> exact ⟨_, rfl⟩
  obtain ⟨op, hfo⟩ := hfail
  unfold jsonRepository
  cases htry : tryBlock (some req) uuid s with
  | mk result s1 =>
    cases result with
    | ok response =>
      refine ⟨response, s1, rfl, ?_⟩
      intro e he
      cases he
    | error e =>
      refine ⟨{ success := false, operation := op,
                entity := if truthy req.entity then req.entity else some (.str "unknown"),
                data := none, count := 0, message := e.message }, s1,
        by simp only [catchBlock, hfo], ?_⟩
      intro e2 he2
      simp only at he2
      cases he2
      exact ⟨rfl, rfl, rfl, rfl⟩

/-- C13: at the request `undefined` and at the request `{entity: "users", operation:
5}` the call of `jsonRepository` does not complete with a result object: the
`catch` block itself raises a `TypeError` and the promise is rejected, the file
system being left as it was. -/
theorem jsonRepository_rejects (uuid : Nat → String) (s : Store) :
    jsonRepository none uuid s =
        (.error (.typeError "Cannot read properties of undefined (reading 'operation')"), s) ∧
      jsonRepository (some numericOperationRequest) uuid s =
        (.error (.typeError "options.operation?.toUpperCase is not a function"), s) :=
  ⟨rfl, rfl⟩

theorem jsonRepository_get_scenario :
    jsonRepository (some getRequest) sampleUuid
        { file := some sampleCollection, backup := none } =
      (.ok { success := true, operation := "GET", entity := some (.str "users"),
             data := some [romeDoc], count := 1,
             message := "Retrieved 1 item(s) matching filters" },
        { file := some sampleCollection, backup := none }) :=
  rfl

end JsonRepository
